import Mathlib

/-!
Verification development for the eks-rolling-update orchestration engine
(src/eksrollup/cli.py, src/eksrollup/lib/k8s.py).

The Python code is shallowly embedded as Lean functions over an explicit
state/trace monad `M`:
  * every externally visible action (AWS scaling call, tag write, cordon,
    drain, eviction, termination, autoscaler pause/resume, ...) is recorded
    as an event `Ev`;
  * the live autoscaling-group cloud state (desired capacity, max size, tags)
    and the run-scoped instance-id -> node-name cache are carried in `St`;
  * Python exceptions are the `Step.err` outcome, `sys.exit`/`exit()` is
    `Step.exited` (it is not caught by `except Exception`, matching
    SystemExit semantics), and a loop that can never make progress is
    `Step.diverge`.

Functions whose source lives in `src/` (cli.py, lib/k8s.py) are translated
line by line and keep their source names.  Functions of this repository that
are *not* under src/ (lib/aws.py, config.py) are modelled from the spec and
carry a doc comment saying so.
-/

namespace EksRollup

/-- Tag on an autoscaling group: key/value pair of strings. -/
abbrev TagKV := String × String

/-- Snapshot of an autoscaling group as returned by the describe call and
stored in the outdated-instance plan (cli.py `asg` dict). -/
structure Asg where
  name : String
  desiredCapacity : Int
  maxSize : Int
  tags : List TagKV
deriving DecidableEq, Repr

/-- An outdated instance descriptor (only the InstanceId field is used by
the orchestration code). -/
structure Inst where
  instanceId : String
deriving DecidableEq, Repr

/-- A kubernetes node as seen by the orchestrator: its name and the provider
id embedded in its spec (k8s.py uses `instance_id in node.spec.provider_id`). -/
structure KNode where
  name : String
  providerId : String
deriving DecidableEq, Repr

/-- A pod scheduled on a node; `ownerKinds` are the kinds of its owner
references (drain_node skips pods owned by a DaemonSet). -/
structure Pod where
  name : String
  ns : String
  ownerKinds : List String
deriving DecidableEq, Repr

/-- Externally visible actions of a run, in program order. -/
inductive Ev where
  | resumeProcesses (asg : String)
  | suspendProcesses (asg : String)
  | saveTag (asg key : String) (value : Int)
  | deleteTag (asg key : String)
  | scaleAsg (asg : String) (old new maxSize : Int)
  | validate (asg : String) (cap : Int)
  | cordon (node : String)
  | taint (node : String)
  | drainAttempt (node : String)
  | evictPod (pod ns : String)
  | deleteNode (node : String)
  | terminate (inst : String)
  | pauseAutoscaler
  | resumeAutoscaler
deriving DecidableEq, Repr

/-- Python exceptions that the embedded code can raise. -/
inductive Err where
  | healthExhausted
  | convError
  | nodeNotFound (inst : String)
  | evictionFailed (pod ns : String)
  | rollingUpdate (asg : String)
  | keyError
deriving DecidableEq, Repr

/-- Live cloud-side state of one autoscaling group. -/
structure AsgCloud where
  desired : Int
  maxSize : Int
  tags : List TagKV
deriving DecidableEq, Repr

/-- Mutable state threaded through a run: cloud state of every group, the
run-scoped instance-to-node-name cache, and the accumulated event trace. -/
structure St where
  cloud : List (String × AsgCloud)
  cache : List (String × String)
  evs : List Ev
deriving DecidableEq, Repr

/-- Outcome of running an embedded computation. -/
inductive Step (α : Type) where
  | ok (a : α) (s : St)
  | err (e : Err) (s : St)
  | exited (code : Nat) (s : St)
  | diverge (s : St)

/-- The embedding monad: state in, one of four outcomes out. -/
def M (α : Type) : Type := St → Step α

instance : Monad M where
  pure a := fun s => .ok a s
  bind x f := fun s =>
    match x s with
    | .ok a s' => f a s'
    | .err e s' => .err e s'
    | .exited c s' => .exited c s'
    | .diverge s' => .diverge s'

/-- Record an event at the end of the trace. -/
def emit (e : Ev) : M Unit := fun s => .ok () { s with evs := s.evs ++ [e] }

/-- Raise a Python exception. -/
def raise {α : Type} (e : Err) : M α := fun s => .err e s

/-- Model of `exit(n)` / `sys.exit(n)`: SystemExit, not caught by
`except Exception`. -/
def exitProc {α : Type} (c : Nat) : M α := fun s => .exited c s

/-- A loop that can never make progress (see `pollWaitFuel`). -/
def hang {α : Type} : M α := fun s => .diverge s

/-- Python try/except Exception: catches `err` only; `exited` (SystemExit)
and `diverge` pass through.  State mutations made before the exception
persist into the handler, as in Python. -/
def tryCatch {α : Type} (x : M α) (h : Err → M α) : M α := fun s =>
  match x s with
  | .err e s' => h e s'
  | r => r

/-- Read the whole state. -/
def getSt : M St := fun s => .ok s s

/-- Replace the whole state. -/
def setSt (s' : St) : M Unit := fun _ => .ok () s'

/-- Association-list lookup (first match), used for dicts keyed by strings. -/
def alookup {β : Type} : List (String × β) → String → Option β
  | [], _ => none
  | (a, b) :: l, k => if a = k then some b else alookup l k

/-- Python-dict insert: overwrite in place if the key exists (keeping its
position), else append. -/
def dictInsert {β : Type} : List (String × β) → String → β → List (String × β)
  | [], k, v => [(k, v)]
  | (a, b) :: l, k, v => if a = k then (k, v) :: l else (a, b) :: dictInsert l k v

/-- Remove a key from an association list. -/
def dictErase {β : Type} (l : List (String × β)) (k : String) :
    List (String × β) :=
  l.filter (fun p => ¬ p.1 = k)

/-- Is `a` a (contiguous) prefix of `b`? -/
def listPrefixOf : List Char → List Char → Bool
  | [], _ => true
  | _ :: _, [] => false
  | a :: as, b :: bs => a == b && listPrefixOf as bs

/-- Is `sub` a contiguous sublist of the second argument? -/
def listInfixCheck (sub : List Char) : List Char → Bool
  | [] => sub.isEmpty
  | b :: bs => listPrefixOf sub (b :: bs) || listInfixCheck sub bs

/-- Python `sub in hay` substring test (see `strContains_iff`). -/
def strContains (hay sub : String) : Bool := listInfixCheck sub.toList hay.toList

/-- Configuration surface used by the orchestration core (`app_config`).
Modelled from the spec: config.py is not under src/; the spec lists the
configuration keys in section 6. `batchSize = 0` models an unset/falsy
BATCH_SIZE. -/
structure Config where
  runMode : Nat
  useAsgTerminationPolicy : Bool
  taintNodes : Bool
  workerGroupsOrder : List String
  parallelNodesCount : Nat
  batchSize : Int
  autoscalerEnabled : Bool

/-- Modelled from the spec: the desired-capacity state tag key
(ASG_DESIRED_STATE_TAG in config.py, which is not under src/). Only the
distinctness of the three keys matters. -/
def ASG_DESIRED_STATE_TAG : String := "t:desired"

/-- Modelled from the spec: the original-capacity state tag key
(ASG_ORIG_CAPACITY_TAG in config.py, which is not under src/). -/
def ASG_ORIG_CAPACITY_TAG : String := "t:orig"

/-- Modelled from the spec: the original-max-capacity state tag key
(ASG_ORIG_MAX_CAPACITY_TAG in config.py, which is not under src/). -/
def ASG_ORIG_MAX_CAPACITY_TAG : String := "t:origmax"

/-- Static environment a run observes: node registry contents (included and
excluded partitions from get_k8s_nodes), pods per node, and oracles for the
outcomes of evictions, instance terminations and health validation. -/
structure World where
  nodes : List KNode
  exNodes : List KNode
  podsOn : String → List Pod
  evictOk : String → String → Bool
  terminateOk : String → Bool
  healthOk : String → Int → Bool

/-- Python truthiness of `d.get('Value')`: present and non-empty. -/
def optTruthy (o : Option String) : Bool :=
  match o with
  | none => false
  | some s => ¬ s = ""

/-- Decimal digit value of a character, if it is one. -/
def digitVal (c : Char) : Option Nat :=
  if 48 ≤ c.toNat ∧ c.toNat ≤ 57 then some (c.toNat - 48) else none

/-- Accumulating decimal parser over the characters of a numeral. -/
def parseNatAux : List Char → Nat → Option Nat
  | [], acc => some acc
  | c :: rest, acc =>
    match digitVal c with
    | some d => parseNatAux rest (acc * 10 + d)
    | none => none

/-- Parse a decimal integer numeral, with an optional leading minus sign
(the shape of every value this system writes into its tags). -/
def pyIntParse (s : String) : Option Int :=
  match s.toList with
  | [] => none
  | '-' :: rest =>
    if rest.isEmpty then none else (parseNatAux rest 0).map (fun n => -(n : Int))
  | cs => (parseNatAux cs 0).map (fun n => (n : Int))

/-- Python `int(...)` on an optional tag value: raises (TypeError on None,
ValueError on a non-numeral) unless the string is an integer numeral. -/
def pyInt (o : Option String) : M Int :=
  match o with
  | none => raise .convError
  | some s =>
    match pyIntParse s with
    | none => raise .convError
    | some n => pure n

/-- Modelled from the spec: lib/aws.py `get_asg_tag` is not under src/;
section 6 describes tag CRUD, and cli.py consumes the result via
`.get('Value')`, so it is modelled as the value of the first tag whose key
matches (absent tag gives none, read as a falsy empty dict in Python). -/
def get_asg_tag (tags : List TagKV) (key : String) : Option String :=
  alookup tags key

/-- Update one group's live cloud record in place. -/
def modCloud (name : String) (f : AsgCloud → AsgCloud) : M Unit := fun s =>
  .ok () { s with cloud := s.cloud.map (fun p => if p.1 = name then (p.1, f p.2) else p) }

/-- Set a tag key to a value on a cloud record (overwrite or append). -/
def setTag (key value : String) (a : AsgCloud) : AsgCloud :=
  { a with tags := dictInsert a.tags key value }

/-- Remove a tag key from a cloud record. -/
def delTag (key : String) (a : AsgCloud) : AsgCloud :=
  { a with tags := dictErase a.tags key }

/-- Suspend/resume flag for `modify_aws_autoscaling`. -/
inductive AwsAction where
  | suspend
  | resume
deriving DecidableEq, Repr

/-- Modelled from the spec: lib/aws.py `modify_aws_autoscaling` is not under
src/; section 6 lists suspend/resume of scaling processes.  Recorded as an
event only. -/
def modify_aws_autoscaling (name : String) (action : AwsAction) : M Unit :=
  match action with
  | .suspend => emit (.suspendProcesses name)
  | .resume => emit (.resumeProcesses name)

/-- Modelled from the spec: lib/aws.py `save_asg_tags` is not under src/;
section 6 lists tag creation.  Writes the stringified value under the key. -/
def save_asg_tags (name key : String) (value : Int) : M Unit := do
  modCloud name (setTag key (toString value))
  emit (.saveTag name key value)

/-- Modelled from the spec: lib/aws.py `delete_asg_tags` is not under src/;
section 6 lists tag deletion. -/
def delete_asg_tags (name key : String) : M Unit := do
  modCloud name (delTag key)
  emit (.deleteTag name key)

/-- Modelled from the spec: lib/aws.py `scale_asg` is not under src/;
section 6 lists read/patch of desired capacity and max size.  Sets the
group's DesiredCapacity to `new` and MaxSize to `mx`. -/
def scale_asg (name : String) (old new mx : Int) : M Unit := do
  modCloud name (fun a => { a with desired := new, maxSize := mx })
  emit (.scaleAsg name old new mx)

/-- Modelled from the spec: lib/aws.py `terminate_instance_in_asg` is not
under src/; section 6 says it reports success/failure/timeout, consumed as a
boolean by cli.py. -/
def terminate_instance_in_asg (w : World) (iid : String) : M Bool := do
  emit (.terminate iid)
  pure (w.terminateOk iid)

/-- Abstraction of `validate_cluster_health` by its observable outcome used
when it is called from scale_up_asg/update_asgs: it records the call with
the expected capacity and either returns or raises the terminal exhaustion
error, as decided by the oracle.  Its internal attempt structure is embedded
faithfully in `validate_cluster_health` below and related to this outcome by
`validate_cluster_health_result`. -/
def validateGate (w : World) (name : String) (cap : Int) : M Unit := do
  emit (.validate name cap)
  if w.healthOk name cap then pure () else raise .healthExhausted

/-- First node of the registry list whose provider id contains the instance
id as a substring (k8s.py get_node_by_instance_id scan with `break` on the
first hit). -/
def listResolve (nodes : List KNode) (iid : String) : Option String :=
  (nodes.find? (fun n => strContains n.providerId iid)).map (fun n => n.name)

/-- Embedding of k8s.py `get_node_by_instance_id`.  The retry loop re-reads
the registry, which is static here, so the outcome is decided by the first
scan: the first provider-id substring match, or an exception after the
retries are exhausted. -/
def get_node_by_instance_id (nodes : List KNode) (iid : String) : M String :=
  match listResolve nodes iid with
  | some nm => pure nm
  | none => raise (.nodeNotFound iid)

/-- Cache lookup (`instance_to_node_cache`). -/
def cacheLookup (iid : String) : M (Option String) := fun s =>
  .ok (alookup s.cache iid) s

/-- Cache insert (`instance_to_node_cache[id] = name`). -/
def cacheInsert (iid nm : String) : M Unit := fun s =>
  .ok () { s with cache := dictInsert s.cache iid nm }

/-- The cache-or-included-list resolution pattern of cli.py (lines 183-187,
218-222, 253-257): consult the cache first, else scan the included node list
and memoise the result. -/
def resolveIncluded (w : World) (iid : String) : M String := do
  let c ← cacheLookup iid
  match c with
  | some nm => pure nm
  | none => do
    let nm ← get_node_by_instance_id w.nodes iid
    cacheInsert iid nm
    pure nm

/-- The cache-or-excluded-list resolution pattern of the exception handlers
(cli.py lines 229-233, 276-280). -/
def resolveExcluded (w : World) (iid : String) : M String := do
  let c ← cacheLookup iid
  match c with
  | some nm => pure nm
  | none => do
    let nm ← get_node_by_instance_id w.exNodes iid
    cacheInsert iid nm
    pure nm

/-- Is the pod owned by a DaemonSet (drain_node skips those)? -/
def isDaemonPod (p : Pod) : Bool := p.ownerKinds.contains ("DaemonSet")

/-- Eviction loop of k8s.py drain_node: skip DaemonSet pods, evict the rest
with zero grace; the first failed eviction raises. -/
def evictAll (w : World) : List Pod → M Unit
  | [] => pure ()
  | p :: rest => fun s =>
    if isDaemonPod p then evictAll w rest s
    else if w.evictOk p.name p.ns then
      match emit (.evictPod p.name p.ns) s with
      | .ok _ s' => evictAll w rest s'
      | r => r
    else .err (.evictionFailed p.name p.ns) s

/-- Embedding of k8s.py `drain_node`: list the pods bound to the node and
run the eviction loop; any eviction failure raises out of the function. -/
def drain_node (w : World) (nm : String) : M Unit := do
  emit (.drainAttempt nm)
  evictAll w (w.podsOn nm)

/-- Embedding of k8s.py `delete_node`: it catches its own ApiException and
never raises, so only the action is recorded. -/
def delete_node (nm : String) : M Unit := emit (.deleteNode nm)

/-- Embedding of k8s.py `cordon_node` (never raises: it catches
ApiException internally). -/
def cordon_node (nm : String) : M Unit := emit (.cordon nm)

/-- Embedding of k8s.py `taint_node` (never raises: it catches ApiException
internally). -/
def taint_node (nm : String) : M Unit := emit (.taint nm)

/-! ## validate_cluster_health (cli.py lines 15-54), fine-grained model

The four remote predicates consulted by one attempt are oracles indexed by
the attempt number (0-based): `is_asg_scaled`, `is_asg_healthy`,
`k8s_nodes_count` applied to the recomputed expected count, and
`k8s_nodes_ready`. -/

/-- Per-attempt outcomes of the four remote checks. -/
structure HealthChecks where
  asgScaled : Nat → Bool
  asgHealthy : Nat → Bool
  nodesCount : Nat → Bool
  nodesReady : Nat → Bool

/-- Observable actions of one validate_cluster_health run: the sleep that
starts every attempt and each remote check with its result. -/
inductive CheckEv where
  | sleep
  | cScaled (b : Bool)
  | cHealthy (b : Bool)
  | cCount (b : Bool)
  | cReady (b : Bool)
deriving DecidableEq, Repr

/-- Embedding of the while-loop of validate_cluster_health: `left` attempts
remain, `i` is the attempt number.  Returns the emitted check events and
whether the function returned (true) or raised the terminal exception after
exhausting the budget (false).  Each attempt sleeps first, then runs the
checks in source order, bailing to the next attempt at the first failure. -/
def vchAux (hc : HealthChecks) : Nat → Nat → List CheckEv × Bool
  | 0, _ => ([], false)
  | left + 1, i =>
    if ¬ hc.asgScaled i then
      let r := vchAux hc left (i + 1)
      (.sleep :: .cScaled false :: r.1, r.2)
    else if ¬ hc.asgHealthy i then
      let r := vchAux hc left (i + 1)
      (.sleep :: .cScaled true :: .cHealthy false :: r.1, r.2)
    else if ¬ hc.nodesCount i then
      let r := vchAux hc left (i + 1)
      (.sleep :: .cScaled true :: .cHealthy true :: .cCount false :: r.1, r.2)
    else if ¬ hc.nodesReady i then
      let r := vchAux hc left (i + 1)
      (.sleep :: .cScaled true :: .cHealthy true :: .cCount true :: .cReady false :: r.1, r.2)
    else
      ([.sleep, .cScaled true, .cHealthy true, .cCount true, .cReady true], true)

/-- Embedding of cli.py `validate_cluster_health` for a retry budget
`retryBudget` (CLUSTER_HEALTH_RETRY): check events plus return/raise flag. -/
def validate_cluster_health (retryBudget : Nat) (hc : HealthChecks) :
    List CheckEv × Bool :=
  vchAux hc retryBudget 0

/-- An attempt on which all four checks pass. -/
def passAll (hc : HealthChecks) (i : Nat) : Bool :=
  hc.asgScaled i && hc.asgHealthy i && hc.nodesCount i && hc.nodesReady i

/-- Keep checks up to and including the first one whose outcome (first
component) is false. -/
def firstFailCut : List (Bool × CheckEv) → List CheckEv
  | [] => []
  | (b, e) :: rest => if b then e :: firstFailCut rest else [e]

/-- Spec-side description of one attempt's events: a sleep, then the checks
in the order scaled/healthy/count/ready, cut after the first failure. -/
def attemptSpec (hc : HealthChecks) (i : Nat) : List CheckEv :=
  CheckEv.sleep ::
    firstFailCut
      [(hc.asgScaled i, CheckEv.cScaled (hc.asgScaled i)),
       (hc.asgHealthy i, CheckEv.cHealthy (hc.asgHealthy i)),
       (hc.nodesCount i, CheckEv.cCount (hc.nodesCount i)),
       (hc.nodesReady i, CheckEv.cReady (hc.nodesReady i))]

/-- First attempt index in [0, budget) on which all four checks pass. -/
def firstPass (hc : HealthChecks) (budget : Nat) : Option Nat :=
  (List.range budget).find? (fun i => passAll hc i)

/-! ## scale_up_asg (cli.py lines 57-144) -/

/-- One step of the batch while-loop (cli.py lines 121-123): add the batch
size, clipping at the target. -/
def scaleStep (B T prev : Int) : Int :=
  let c := prev + B
  if c ≥ T then T else c

/-- The while-loop of the fresh-rollout branch (cli.py lines 115-142).
`prev` is the capacity before this iteration (`old_desired_capacity`): the
new capacity is `prev + B` clipped at `T` (or directly `T` when BATCH_SIZE
is falsy), the scaling call raises MaxSize only above the group's original
max `M0`, and cluster health is validated before the next iteration.  `gas`
bounds the iteration count; it is spent only when the loop would not have
terminated anyway (`hang`), and `(T - C).toNat` steps always suffice from
`C` since each iteration advances the capacity by at least one. -/
def scaleLoop (w : World) (name : String) (B M0 T : Int) : Nat → Int → M Unit
  | 0, _ => hang
  | gas + 1, prev => fun s =>
    let cur := if B = 0 then T else scaleStep B T prev
    let act : M Unit := do
      if cur > M0 then scale_asg name prev cur cur else scale_asg name prev cur M0
      validateGate w name cur
    match act s with
    | .ok _ s' => if cur = T then .ok () s' else scaleLoop w name B M0 T gas cur s'
    | .err e s' => .err e s'
    | .exited c s' => .exited c s'
    | .diverge s' => .diverge s'

/-- Embedding of cli.py `scale_up_asg(cluster_name, asg, count)`.  Returns
the (target, original desired, original max) triple. -/
def scale_up_asg (w : World) (cfg : Config) (asg : Asg) (count : Nat) :
    M (Int × Int × Int) := do
  let asgOldMaxSize := asg.maxSize
  let asgOldDesiredCapacity := asg.desiredCapacity
  let desiredCapacity := asgOldDesiredCapacity + count
  let name := asg.name
  modify_aws_autoscaling name .resume
  let batchSize := cfg.batchSize
  let tagDesired := get_asg_tag asg.tags ASG_DESIRED_STATE_TAG
  let tagOrig := get_asg_tag asg.tags ASG_ORIG_CAPACITY_TAG
  let tagOrigMax := get_asg_tag asg.tags ASG_ORIG_MAX_CAPACITY_TAG
  if desiredCapacity = asgOldDesiredCapacity then
    if optTruthy tagDesired ∧ optTruthy tagOrig ∧ optTruthy tagOrigMax then do
      let a ← pyInt tagDesired
      let b ← pyInt tagOrig
      let c ← pyInt tagOrigMax
      pure (a, b, c)
    else do
      save_asg_tags name ASG_ORIG_CAPACITY_TAG asgOldDesiredCapacity
      save_asg_tags name ASG_DESIRED_STATE_TAG asgOldDesiredCapacity
      save_asg_tags name ASG_ORIG_MAX_CAPACITY_TAG asgOldMaxSize
      pure (asgOldDesiredCapacity, asgOldDesiredCapacity, asgOldMaxSize)
  else if optTruthy tagDesired then do
    let tv ← pyInt tagDesired
    validateGate w name tv
    let b ← pyInt tagOrig
    let c ← pyInt tagOrigMax
    pure (tv, b, c)
  else do
    save_asg_tags name ASG_ORIG_CAPACITY_TAG asgOldDesiredCapacity
    save_asg_tags name ASG_DESIRED_STATE_TAG desiredCapacity
    save_asg_tags name ASG_ORIG_MAX_CAPACITY_TAG asgOldMaxSize
    scaleLoop w name batchSize asgOldMaxSize desiredCapacity
      (desiredCapacity - asgOldDesiredCapacity).toNat asgOldDesiredCapacity
    pure (desiredCapacity, asgOldDesiredCapacity, asgOldMaxSize)

/-! ## update_asgs (cli.py lines 147-296)

The outdated-instance plan (`plan_asgs` / `plan_asgs_older_nodes`, lib/aws.py,
not under src/) is taken as an input: a list of entries keyed by the group
name, each with the outdated instance descriptors and the group snapshot
used to compute them. -/

/-- One entry of the outdated-instance plan; the dict key is the group
name, `asg.name`. -/
structure PlanEntry where
  instances : List Inst
  asg : Asg
deriving DecidableEq, Repr

/-- Does the group name contain one of the configured worker-group order
substrings (cli.py `any(group in asg_name for group in worker_groups_order)`). -/
def matchesOrder (order : List String) (name : String) : Bool :=
  order.any (fun g => strContains name g)

/-- The (per-group) capacity triple recorded in `asg_state_dict`. -/
abbrev Triple := Int × Int × Int

/-- Mode-2 upfront scale-up over the whole plan (cli.py lines 165-170),
building `asg_state_dict`. -/
def scaleUpAll (w : World) (cfg : Config) :
    List PlanEntry → List (String × Triple) → M (List (String × Triple))
  | [], sd => pure sd
  | e :: rest, sd => fun s =>
    match scale_up_asg w cfg e.asg e.instances.length s with
    | .ok tr s' => scaleUpAll w cfg rest (dictInsert sd e.asg.name tr) s'
    | .err er s' => .err er s'
    | .exited c s' => .exited c s'
    | .diverge s' => .diverge s'

/-- Cordon/taint of one instance in the mode-2/3 upfront phase (cli.py
lines 180-195): resolve against the cache or the included list, then cordon
or taint; any failure exits the process with code 1 (no excluded-list
fallback in this phase). -/
def cordonOne23 (w : World) (cfg : Config) (iid : String) : M Unit :=
  tryCatch
    (do
      let nm ← resolveIncluded w iid
      if ¬ cfg.taintNodes then cordon_node nm else taint_node nm)
    (fun _ => exitProc 1)

/-- Instance loop of the mode-2/3 upfront cordon phase. -/
def cordonLoop23 (w : World) (cfg : Config) : List Inst → M Unit
  | [] => pure ()
  | i :: rest => fun s =>
    match cordonOne23 w cfg i.instanceId s with
    | .ok _ s' => cordonLoop23 w cfg rest s'
    | r => r

/-- Group loop of the mode-2/3 upfront cordon phase, skipping groups whose
name matches no worker-group order entry (cli.py lines 175-178). -/
def cordonPhase23 (w : World) (cfg : Config) : List PlanEntry → M Unit
  | [] => pure ()
  | e :: rest => fun s =>
    if ¬ matchesOrder cfg.workerGroupsOrder e.asg.name then
      cordonPhase23 w cfg rest s
    else
      match cordonLoop23 w cfg e.instances s with
      | .ok _ s' => cordonPhase23 w cfg rest s'
      | r => r

/-- Cordon/taint of one instance in the per-group mode-1/4 phase (cli.py
lines 215-239): on any failure, fall back to the cache or the excluded node
list and skip the instance; if that also fails, exit 1. -/
def cordonOne14 (w : World) (cfg : Config) (iid : String) : M Unit :=
  tryCatch
    (do
      let nm ← resolveIncluded w iid
      if ¬ cfg.taintNodes then cordon_node nm else taint_node nm)
    (fun _ =>
      tryCatch
        (do
          let _nm ← resolveExcluded w iid
          pure ())
        (fun _ => exitProc 1))

/-- Instance loop of the mode-1/4 cordon phase. -/
def cordonLoop14 (w : World) (cfg : Config) : List Inst → M Unit
  | [] => pure ()
  | i :: rest => fun s =>
    match cordonOne14 w cfg i.instanceId s with
    | .ok _ s' => cordonLoop14 w cfg rest s'
    | r => r

/-- Inner loop of the worker-group-order sort: for one order entry, append
the not-yet-taken plan entries whose group name contains it. -/
def sortInner (g : String) (plan : List PlanEntry) (acc : List PlanEntry) : List PlanEntry :=
  plan.foldl
    (fun acc2 e =>
      if strContains e.asg.name g ∧ ¬ acc2.any (fun e2 => e2.asg.name = e.asg.name)
      then acc2 ++ [e] else acc2)
    acc

/-- Worker-group-order sort of the plan (cli.py lines 198-202): for each
order entry in turn, append the not-yet-taken plan entries whose group name
contains it (dict insertion keeps the first position on re-insert). -/
def sortPlan (order : List String) (plan : List PlanEntry) : List PlanEntry :=
  order.foldl (fun acc g => sortInner g plan acc) []

/-- Exception handler of the retirement loop (cli.py lines 274-284): if the
instance is in the cache, log it as excluded and continue; otherwise resolve
it against the excluded node list (caching it) and continue; if that also
fails, raise RollingUpdateException for the group.  `d`/`r` are the values
the counter and the in-flight count carry into the next iteration. -/
def retireHandler (w : World) (asgName iid : String) (d : Int) (r : Nat) :
    M (Int × Nat) := do
  let c ← cacheLookup iid
  match c with
  | some _ => pure (d, r)
  | none =>
    tryCatch
      (do
        let nm ← get_node_by_instance_id w.exNodes iid
        cacheInsert iid nm
        pure (d, r))
      (fun _ => raise (.rollingUpdate asgName))

/-- Body of one retirement iteration (cli.py lines 252-284).  The only
raising calls inside the `try` are the node-name resolution and the drain
(delete_node, save_asg_tags and terminate_instance_in_asg do not raise), so
the except-handler is entered from exactly those two points; the counter
decrement at line 258 has already happened when the drain raises, so the
handler then carries `desired - 1` forward. -/
def retireOne (w : World) (cfg : Config) (asgName iid : String)
    (desired : Int) (running : Nat) : M (Int × Nat) := fun s =>
  match resolveIncluded w iid s with
  | .err _ s1 => retireHandler w asgName iid desired running s1
  | .exited c s1 => .exited c s1
  | .diverge s1 => .diverge s1
  | .ok nm s1 =>
    match drain_node w nm s1 with
    | .err _ s2 => retireHandler w asgName iid (desired - 1) running s2
    | .exited c s2 => .exited c s2
    | .diverge s2 => .diverge s2
    | .ok _ s2 =>
      (do
        delete_node nm
        save_asg_tags asgName ASG_DESIRED_STATE_TAG (desired - 1)
        if ¬ cfg.useAsgTerminationPolicy then do
          let _ok ← terminate_instance_in_asg w iid
          pure (desired - 1, running + 1)
        else
          pure (desired - 1, running)) s2

/-- Retirement loop over a group's outdated instances (cli.py lines
249-284).  Before each instance the caller polls the throttle
(`while running_updates >= parallel_nodes_count: time.sleep(10)`); nothing
in that wait loop changes `running_updates`, so it never exits once entered
(see `pollWaitFuel_none`), which is modelled as divergence. -/
def retireLoop (w : World) (cfg : Config) (asgName : String) :
    List Inst → Int → Nat → M Int
  | [], d, _ => pure d
  | i :: rest, d, r => fun s =>
    if r ≥ cfg.parallelNodesCount then .diverge s
    else
      match retireOne w cfg asgName i.instanceId d r s with
      | .ok (d', r') s1 => retireLoop w cfg asgName rest d' r' s1
      | .err e s1 => .err e s1
      | .exited c s1 => .exited c s1
      | .diverge s1 => .diverge s1

/-- The throttle wait loop itself, with explicit fuel: one unit is burned
per re-poll of the unchanged counter.  It succeeds only if the counter is
already below the cap. -/
def pollWaitFuel (running parallel : Nat) : Nat → Option Unit
  | 0 => none
  | fuel + 1 => if running ≥ parallel then pollWaitFuel running parallel fuel else some ()

/-- Per-group phase of update_asgs (cli.py lines 205-295): optional
scale-up (modes 1/3/4), optional cordon/taint (modes 1/4), suspension of the
group's scaling processes, the retirement loop, and the cleanup that scales
the group back and deletes the three state tags. -/
def perGroup (w : World) (cfg : Config) (sd : List (String × Triple))
    (e : PlanEntry) : M (List (String × Triple)) := do
  let name := e.asg.name
  let sd1 ←
    if cfg.runMode = 1 ∨ cfg.runMode = 3 ∨ cfg.runMode = 4 then do
      let tr ← scale_up_asg w cfg e.asg e.instances.length
      pure (dictInsert sd name tr)
    else
      pure sd
  if cfg.runMode = 1 ∨ cfg.runMode = 4 then cordonLoop14 w cfg e.instances
  else pure ()
  if ¬ e.instances.isEmpty ∧ ¬ cfg.useAsgTerminationPolicy then
    modify_aws_autoscaling name .suspend
  else pure ()
  match alookup sd1 name with
  | none => raise .keyError
  | some tr => do
    let _final ← retireLoop w cfg name e.instances tr.1 0
    scale_asg name tr.1 tr.2.1 tr.2.2
    if ¬ cfg.useAsgTerminationPolicy then modify_aws_autoscaling name .resume
    else pure ()
    delete_asg_tags name ASG_DESIRED_STATE_TAG
    delete_asg_tags name ASG_ORIG_CAPACITY_TAG
    delete_asg_tags name ASG_ORIG_MAX_CAPACITY_TAG
    pure sd1

/-- Loop of the per-group phase over the sorted plan. -/
def groupLoop (w : World) (cfg : Config) :
    List PlanEntry → List (String × Triple) → M Unit
  | [], _ => pure ()
  | e :: rest, sd => fun s =>
    match perGroup w cfg sd e s with
    | .ok sd' s' => groupLoop w cfg rest sd' s'
    | .err er s' => .err er s'
    | .exited c s' => .exited c s'
    | .diverge s' => .diverge s'

/-- Embedding of cli.py `update_asgs(asgs, cluster_name)`: mode-2 upfront
scale-up, mode-2/3 upfront cordon/taint, worker-group sorting, then the
per-group drain/terminate/scale-down phase (which the code runs in every
mode). -/
def update_asgs (w : World) (cfg : Config) (plan : List PlanEntry) : M Unit := do
  let sd ←
    if cfg.runMode = 2 then scaleUpAll w cfg plan []
    else pure []
  if cfg.runMode = 2 ∨ cfg.runMode = 3 then cordonPhase23 w cfg plan
  else pure ()
  groupLoop w cfg (sortPlan cfg.workerGroupsOrder plan) sd

/-- Embedding of the real-update branch of cli.py `main` (lines 325-342):
pause the cluster autoscaler if enabled, run update_asgs, resume the
autoscaler only on success; on any exception, log and exit 1 without
resuming (the code only prints that the autoscaler will need resuming
manually).  The dry-run and kubectl-presence branches are out of scope of
the modelled claims. -/
def mainRun (w : World) (cfg : Config) (plan : List PlanEntry) : M Unit := do
  if cfg.autoscalerEnabled then emit .pauseAutoscaler
  else pure ()
  tryCatch
    (do
      update_asgs w cfg plan
      if cfg.autoscalerEnabled then emit .resumeAutoscaler
      else pure ())
    (fun _ => exitProc 1)

/-! ## Run projections -/

/-- Initial state of a run: live cloud state seeded from the plan's group
snapshots, empty cache, empty trace. -/
def initSt (plan : List PlanEntry) : St :=
  { cloud := plan.map (fun e =>
      (e.asg.name,
        { desired := e.asg.desiredCapacity, maxSize := e.asg.maxSize,
          tags := e.asg.tags }))
    cache := []
    evs := [] }

/-- Outcome kind of a step, with the final state erased. -/
inductive RKind where
  | ok
  | err (e : Err)
  | exited (c : Nat)
  | diverge
deriving DecidableEq, Repr

/-- Outcome kind of a computation on a state. -/
def runKind {α : Type} (m : M α) (s : St) : RKind :=
  match m s with
  | .ok _ _ => .ok
  | .err e _ => .err e
  | .exited c _ => .exited c
  | .diverge _ => .diverge

/-- Final event trace of a computation on a state (also on error). -/
def runEvs {α : Type} (m : M α) (s : St) : List Ev :=
  match m s with
  | .ok _ s' => s'.evs
  | .err _ s' => s'.evs
  | .exited _ s' => s'.evs
  | .diverge s' => s'.evs

/-- Final cloud state of a computation on a state. -/
def runCloud {α : Type} (m : M α) (s : St) : List (String × AsgCloud) :=
  match m s with
  | .ok _ s' => s'.cloud
  | .err _ s' => s'.cloud
  | .exited _ s' => s'.cloud
  | .diverge s' => s'.cloud

/-- Lookup of a tag on a group in the final cloud state. -/
def tagLookupCloud (cloud : List (String × AsgCloud)) (name key : String) :
    Option String :=
  (alookup cloud name).bind (fun a => alookup a.tags key)

/-! ## Spec-side descriptions used in theorem statements -/

/-- The attempts validate_cluster_health actually starts: all of them when
none passes, else every attempt up to and including the first passing one. -/
def vchAttempts (hc : HealthChecks) (budget : Nat) : Nat :=
  match firstPass hc budget with
  | some k => k + 1
  | none => budget

/-- The mark-unschedulable action the configuration selects. -/
def cordonEv (cfg : Config) (nm : String) : Ev :=
  if ¬ cfg.taintNodes then .cordon nm else .taint nm

/-- The node name an instance id resolves to against a cache and the
included node list: the cached name if present, else the first provider-id
match. -/
def nodeOf (w : World) (cache : List (String × String)) (iid : String) :
    Option String :=
  match alookup cache iid with
  | some nm => some nm
  | none => listResolve w.nodes iid

/-- Do all evictable (non-DaemonSet) pods of the node evict successfully? -/
def drainAllOk (w : World) (nm : String) : Bool :=
  (w.podsOn nm).all (fun p => isDaemonPod p || w.evictOk p.name p.ns)

/-- Eviction events a drain emits: one per non-DaemonSet pod in order, cut
at the first pod whose eviction fails. -/
def evictTraceOf (w : World) : List Pod → List Ev
  | [] => []
  | p :: rest =>
    if isDaemonPod p then evictTraceOf w rest
    else if w.evictOk p.name p.ns then
      Ev.evictPod p.name p.ns :: evictTraceOf w rest
    else []

/-- The first non-DaemonSet pod of the list whose eviction fails. -/
def firstEvictFail (w : World) : List Pod → Option Pod
  | [] => none
  | p :: rest =>
    if isDaemonPod p then firstEvictFail w rest
    else if w.evictOk p.name p.ns then firstEvictFail w rest
    else some p

/-- Cache contents after the cache-or-included-list resolution of one
instance id: unchanged on a cache hit, the first included match memoised on
a miss. -/
def cacheAfterResolve (w : World) (cache : List (String × String)) (iid : String) :
    List (String × String) :=
  match alookup cache iid with
  | some _ => cache
  | none =>
    match listResolve w.nodes iid with
    | some nm => dictInsert cache iid nm
    | none => cache

/-- Effect of one tag write on the cloud state. -/
def setCloudTag (name key value : String) (cloud : List (String × AsgCloud)) :
    List (String × AsgCloud) :=
  cloud.map (fun p => if p.1 = name then (p.1, setTag key value p.2) else p)

/-- Effect of one tag deletion on the cloud state. -/
def delCloudTag (name key : String) (cloud : List (String × AsgCloud)) :
    List (String × AsgCloud) :=
  cloud.map (fun p => if p.1 = name then (p.1, delTag key p.2) else p)

/-- Number of instances of the list whose node name resolves (cache or
included list); each of them decrements the running counter exactly once. -/
def resolvedCount (w : World) (cache : List (String × String)) (l : List Inst) :
    Nat :=
  (l.filter (fun i => (nodeOf w cache i.instanceId).isSome)).length

/-- Events of the retirement loop on `l` with the counter starting at `d`,
described against the starting cache: an instance that does not resolve is
skipped silently (excluded-list fallback); one that resolves is drained, and
on a fully successful drain it is deleted, the decremented counter is saved
to the desired-state tag (before the termination call), and the instance is
terminated (unless the group's own termination policy is used); on a failed
drain the eviction events stop at the failing pod and nothing else happens
for that instance, but the counter decrement persists. -/
def retireBlocksG (w : World) (cfg : Config) (asgName : String)
    (cache : List (String × String)) : List Inst → Int → List Ev
  | [], _ => []
  | i :: rest, d =>
    match nodeOf w cache i.instanceId with
    | none => retireBlocksG w cfg asgName cache rest d
    | some nm =>
      (if drainAllOk w nm then
        (Ev.drainAttempt nm :: evictTraceOf w (w.podsOn nm)) ++
          [Ev.deleteNode nm, Ev.saveTag asgName ASG_DESIRED_STATE_TAG (d - 1)] ++
          (if cfg.useAsgTerminationPolicy then [] else [Ev.terminate i.instanceId])
      else
        Ev.drainAttempt nm :: evictTraceOf w (w.podsOn nm)) ++
        retireBlocksG w cfg asgName cache rest (d - 1)

/-- Number of batch steps of the claimed scale-up sequence: the least k with
C + k*B at or above T, i.e. the ceiling of (T-C)/B. -/
def nSteps (B C T : Int) : Nat :=
  ((T - C).toNat + (B.toNat - 1)) / B.toNat

/-- The claimed sequence of intermediate desired capacities: C+B, C+2B, ...
with the last step clipped to T. -/
def capsFrom (B C T : Int) : List Int :=
  (List.range (nSteps B C T)).map (fun i => min (C + (Int.ofNat i + 1) * B) T)

/-- Effect of one scaling call on the cloud state: the named group's
desired capacity and max size are set. -/
def applyScale (name : String) (d m : Int) (cloud : List (String × AsgCloud)) :
    List (String × AsgCloud) :=
  cloud.map (fun p => if p.1 = name then (p.1, { p.2 with desired := d, maxSize := m }) else p)

/-- The two calls one batch step issues: the scaling call (raising MaxSize
to the new capacity only when it exceeds the original max `M0`) followed by
the health validation of the new capacity. -/
def scaleBlockSpec (name : String) (M0 prev cap : Int) : List Ev :=
  [Ev.scaleAsg name prev cap (if cap > M0 then cap else M0), Ev.validate name cap]

/-- The full claimed event sequence of batch scaling through the given
capacities, starting from `prev`: each step validates health before the next
scaling call is issued. -/
def scaleTraceSpec (name : String) (M0 : Int) : Int → List Int → List Ev
  | _, [] => []
  | prev, c :: rest => scaleBlockSpec name M0 prev c ++ scaleTraceSpec name M0 c rest

/-! ## Concrete fixtures for counterexamples and witnesses -/

/-- A group with three instances at its original size, no state tags. -/
def fxAsg : Asg :=
  { name := "webA", desiredCapacity := 3, maxSize := 3, tags := [] }

/-- A group whose name matches no worker-group-order entry. -/
def fxAsgOther : Asg :=
  { name := "zzz", desiredCapacity := 2, maxSize := 2, tags := [] }

/-- First outdated instance. -/
def fxInst1 : Inst := { instanceId := "i-1" }

/-- Second outdated instance. -/
def fxInst2 : Inst := { instanceId := "i-2" }

/-- Node backing the first instance. -/
def fxNode1 : KNode := { name := "n1", providerId := "p/i-1" }

/-- Node backing the second instance. -/
def fxNode2 : KNode := { name := "n2", providerId := "p/i-2" }

/-- An ordinary evictable pod. -/
def fxPod : Pod := { name := "p1", ns := "default", ownerKinds := [] }

/-- World in which everything succeeds: both nodes registered, one evictable
pod per node, evictions, terminations and health checks all pass. -/
def fxWorld : World :=
  { nodes := [fxNode1, fxNode2], exNodes := [],
    podsOn := fun _ => [fxPod],
    evictOk := fun _ _ => true, terminateOk := fun _ => true,
    healthOk := fun _ _ => true }

/-- World in which the eviction of the pod on node n1 fails (and n2 carries
no pods, so its drain trivially succeeds). -/
def fxWorldBadDrain : World :=
  { fxWorld with
    evictOk := fun _ _ => false,
    podsOn := fun nm => if nm = "n1" then [fxPod] else [] }

/-- World in which cluster health validation never passes. -/
def fxWorldNoHealth : World := { fxWorld with healthOk := fun _ _ => false }

/-- Baseline configuration: run mode 1, no termination policy, cordon (not
taint), ample parallelism, no batching, autoscaler integration enabled. -/
def fxCfg : Config :=
  { runMode := 1, useAsgTerminationPolicy := false, taintNodes := false,
    workerGroupsOrder := ["web"], parallelNodesCount := 5, batchSize := 0,
    autoscalerEnabled := true }

/-- Run-mode-2 variant of the baseline configuration. -/
def fxCfg2 : Config := { fxCfg with runMode := 2 }

/-- Throttled variant: at most one in-flight retirement. -/
def fxCfgThrottle : Config := { fxCfg with parallelNodesCount := 1 }

/-- Batch-scaling variant: BATCH_SIZE = 2. -/
def fxCfgBatch : Config := { fxCfg with batchSize := 2 }

/-- Single-group plan with one outdated instance. -/
def fxPlan1 : List PlanEntry := [{ instances := [fxInst1], asg := fxAsg }]

/-- Single-group plan with two outdated instances. -/
def fxPlan2 : List PlanEntry := [{ instances := [fxInst1, fxInst2], asg := fxAsg }]

/-- Plan whose only group does not match the worker-group order. -/
def fxPlanOther : List PlanEntry := [{ instances := [fxInst1], asg := fxAsgOther }]

/-- Group snapshot carrying all three resumable state tags of a prior run. -/
def fxAsgResumable : Asg :=
  { fxAsg with tags :=
      [(ASG_DESIRED_STATE_TAG, "5"), (ASG_ORIG_CAPACITY_TAG, "3"),
       (ASG_ORIG_MAX_CAPACITY_TAG, "3")] }

/-- Group snapshot with a partially written tag set: the desired-capacity
tag is present but the two original-capacity tags are missing. -/
def fxAsgPartialTags : Asg :=
  { fxAsg with tags := [(ASG_DESIRED_STATE_TAG, "5")] }

/-! # Theorems -/

/-- The executable prefix test agrees with the prefix relation. -/
theorem listPrefixOf_iff : ∀ a b : List Char, listPrefixOf a b = true ↔ a <+: b := by
  intro a
  induction a with
  | nil => intro b; simp [listPrefixOf]
  | cons x xs ih =>
    intro b
    cases b with
    | nil => simp [listPrefixOf]
    | cons y ys => simp [listPrefixOf, List.cons_prefix_cons, ih, beq_iff_eq]

/-- The executable substring test agrees with the contiguous-sublist
relation, so `strContains` is Python's `in` on strings. -/
theorem strContains_iff (hay sub : String) :
    strContains hay sub = true ↔ sub.toList <:+: hay.toList := by
  have h : ∀ b a : List Char, listInfixCheck a b = true ↔ a <:+: b := by
    intro b
    induction b with
    | nil => intro a; cases a <;> simp [listInfixCheck]
    | cons y ys ih =>
      intro a
      simp [listInfixCheck, listPrefixOf_iff, ih, List.infix_cons_iff]
  exact h hay.toList sub.toList

/-! Pointwise evaluation lemmas for the monad operations; together they let
`simp` run an embedded program on a concrete state like an interpreter. -/

@[simp] theorem bind_apply {a b : Type} (x : M a) (f : a → M b) (s : St) :
    (x >>= f) s =
      match x s with
      | .ok v s' => f v s'
      | .err e s' => .err e s'
      | .exited c s' => .exited c s'
      | .diverge s' => .diverge s' := rfl

@[simp] theorem pure_apply {a : Type} (v : a) (s : St) :
    (pure v : M a) s = .ok v s := rfl

@[simp] theorem emit_apply (e : Ev) (s : St) :
    emit e s = .ok () { s with evs := s.evs ++ [e] } := rfl

@[simp] theorem raise_apply {a : Type} (e : Err) (s : St) :
    (raise e : M a) s = .err e s := rfl

@[simp] theorem exitProc_apply {a : Type} (c : Nat) (s : St) :
    (exitProc c : M a) s = .exited c s := rfl

@[simp] theorem hang_apply {a : Type} (s : St) :
    (hang : M a) s = .diverge s := rfl

@[simp] theorem tryCatch_apply {a : Type} (x : M a) (h : Err → M a) (s : St) :
    tryCatch x h s =
      match x s with
      | .err e s' => h e s'
      | r => r := rfl

@[simp] theorem cacheLookup_apply (iid : String) (s : St) :
    cacheLookup iid s = .ok (alookup s.cache iid) s := rfl

@[simp] theorem cacheInsert_apply (iid nm : String) (s : St) :
    cacheInsert iid nm s = .ok () { s with cache := dictInsert s.cache iid nm } := rfl

@[simp] theorem modCloud_apply (name : String) (f : AsgCloud → AsgCloud) (s : St) :
    modCloud name f s =
      .ok ()
        { s with cloud := s.cloud.map (fun p => if p.1 = name then (p.1, f p.2) else p) } := rfl

theorem find?_map_helper {α β : Type} (p : β → Bool) (f : α → β) :
    ∀ l : List α, List.find? p (l.map f) = (List.find? (fun a => p (f a)) l).map f := by
  intro l
  induction l with
  | nil => rfl
  | cons x xs ih =>
    by_cases h : p (f x) <;> simp [List.find?, h, ih]

theorem find?_range_succ (p : Nat → Bool) (n : Nat) :
    (List.range (n+1)).find? p =
      if p 0 then some 0
      else ((List.range n).find? (fun j => p (j+1))).map Nat.succ := by
  rw [List.range_succ_eq_map]
  cases h0 : p 0 with
  | true =>
    rw [List.find?_cons_of_pos _ h0]
    simp
  | false =>
    rw [List.find?_cons_of_neg _ (by simp [h0])]
    rw [find?_map_helper]
    simp

theorem flatMap_range_succ {β : Type} (f : Nat → List β) (n : Nat) :
    (List.range (n+1)).flatMap f = f 0 ++ (List.range n).flatMap (fun j => f (j+1)) := by
  rw [List.range_succ_eq_map, List.flatMap_cons]
  congr 1
  induction (List.range n) with
  | nil => rfl
  | cons x xs ih => simp [List.flatMap_cons, ih]

theorem vchAux_succ_pass (hc : HealthChecks) (n i : Nat) (h : passAll hc i = true) :
    vchAux hc (n+1) i = (attemptSpec hc i, true) := by
  simp only [passAll, Bool.and_eq_true] at h
  obtain ⟨⟨⟨h1, h2⟩, h3⟩, h4⟩ := h
  simp [vchAux, h1, h2, h3, h4, attemptSpec, firstFailCut]

theorem vchAux_succ_fail (hc : HealthChecks) (n i : Nat) (h : passAll hc i = false) :
    vchAux hc (n+1) i =
      (attemptSpec hc i ++ (vchAux hc n (i+1)).1, (vchAux hc n (i+1)).2) := by
  rcases Bool.eq_false_or_eq_true (hc.asgScaled i) with h1 | h1 <;>
    rcases Bool.eq_false_or_eq_true (hc.asgHealthy i) with h2 | h2 <;>
    rcases Bool.eq_false_or_eq_true (hc.nodesCount i) with h3 | h3 <;>
    rcases Bool.eq_false_or_eq_true (hc.nodesReady i) with h4 | h4 <;>
    simp [passAll, h1, h2, h3, h4] at h ⊢ <;>
    simp [vchAux, h1, h2, h3, h4, attemptSpec, firstFailCut]

theorem vchAux_spec (hc : HealthChecks) : ∀ left i,
    ((vchAux hc left i).2 = true ↔ ∃ j, j < left ∧ passAll hc (i + j) = true) ∧
    (vchAux hc left i).1 =
      (List.range (match (List.range left).find? (fun j => passAll hc (i + j)) with
                   | some k => k + 1
                   | none => left)).flatMap (fun j => attemptSpec hc (i + j)) := by
  intro left
  induction left with
  | zero => intro i; simp [vchAux]
  | succ n ih =>
    intro i
    cases hp : passAll hc i with
    | true =>
      rw [vchAux_succ_pass hc n i hp]
      constructor
      · simpa using ⟨0, by omega, by simpa using hp⟩
      · rw [find?_range_succ]
        simp only [Nat.add_zero, hp, if_pos]
        rw [flatMap_range_succ]
        simp
    | false =>
      rw [vchAux_succ_fail hc n i hp]
      obtain ⟨ih1, ih2⟩ := ih (i + 1)
      have harg : (fun j => passAll hc (i + (j+1))) = (fun j => passAll hc (i + 1 + j)) := by
        funext j
        rw [show i + (j+1) = i + 1 + j from by omega]
      have hargA : (fun j => attemptSpec hc (i + (j+1))) = (fun j => attemptSpec hc (i + 1 + j)) := by
        funext j
        rw [show i + (j+1) = i + 1 + j from by omega]
      constructor
      · simp only [ih1]
        constructor
        · rintro ⟨j, hj, hpass⟩
          exact ⟨j + 1, by omega, by rwa [show i + (j+1) = i + 1 + j from by omega]⟩
        · rintro ⟨j, hj, hpass⟩
          cases j with
          | zero => rw [Nat.add_zero] at hpass; rw [hpass] at hp; cases hp
          | succ k =>
            exact ⟨k, by omega, by rwa [show i + 1 + k = i + (k+1) from by omega]⟩
      · rw [find?_range_succ]
        rw [if_neg (by simp [hp])]
        rw [harg]
        cases hf : (List.range n).find? (fun j => passAll hc (i + 1 + j)) with
        | some k =>
          simp only [hf, Option.map_some']
          rw [flatMap_range_succ]
          simp only [Nat.add_zero]
          congr 1
          rw [hargA, ih2, hf]
        | none =>
          simp only [hf, Option.map_none']
          rw [flatMap_range_succ]
          simp only [Nat.add_zero]
          congr 1
          rw [hargA, ih2, hf]

/-- Claim C6.  Every attempt of validate_cluster_health sleeps and then
evaluates the four checks in strict order (scaled capacity reached, all
instances healthy, expected node count reached, all counted nodes Ready),
the first failed check ending the attempt (`attemptSpec`); the function
returns success exactly when some attempt within the retry budget passes all
four checks - stopping at the first such attempt - and after exhausting the
budget with no fully passing attempt it raises instead of returning (the
boolean component: true is return, false is the raised fatal error). -/
theorem c6_validate_cluster_health_contract (R : Nat) (hc : HealthChecks) :
    ((validate_cluster_health R hc).2 = true ↔ ∃ i, i < R ∧ passAll hc i = true) ∧
    (validate_cluster_health R hc).1 =
      (List.range (vchAttempts hc R)).flatMap (attemptSpec hc) := by
  have h := vchAux_spec hc R 0
  have hz : (fun j => passAll hc (0 + j)) = (fun j => passAll hc j) := by
    funext j
    rw [Nat.zero_add]
  have hzA : (fun j => attemptSpec hc (0 + j)) = (fun j => attemptSpec hc j) := by
    funext j
    rw [Nat.zero_add]
  constructor
  · simpa [validate_cluster_health] using h.1
  · have h2 := h.2
    rw [hz, hzA] at h2
    rw [validate_cluster_health, h2, vchAttempts, firstPass]

theorem capsFrom_cons (B C T : Int) (hB : 1 ≤ B) (hCT : C < T) :
    capsFrom B C T =
      min (C + B) T :: (if C + B < T then capsFrom B (C + B) T else []) := by
  by_cases hstep : C + B < T
  · have hn : nSteps B C T = nSteps B (C + B) T + 1 := by
      unfold nSteps
      have h1 : (T - C).toNat = (T - (C + B)).toNat + B.toNat := by omega
      rw [h1]
      have h2 : (T - (C + B)).toNat + B.toNat + (B.toNat - 1) =
          ((T - (C + B)).toNat + (B.toNat - 1)) + B.toNat := by omega
      rw [h2, Nat.add_div_right _ (by omega)]
    rw [if_pos hstep]
    unfold capsFrom
    rw [hn, List.range_succ_eq_map]
    simp only [List.map_cons, List.map_map]
    congr 1
    · show min (C + (Int.ofNat 0 + 1) * B) T = min (C + B) T
      norm_num
    · apply List.map_congr_left
      intro i _
      simp only [Function.comp_apply]
      congr 1
      simp only [Int.ofNat_eq_natCast]
      push_cast
      ring
  · have hbn : 0 < B.toNat := by omega
    have hn : nSteps B C T = 1 := by
      unfold nSteps
      have hge : 1 ≤ ((T - C).toNat + (B.toNat - 1)) / B.toNat :=
        (Nat.one_le_div_iff hbn).mpr (by omega)
      have hlt : ((T - C).toNat + (B.toNat - 1)) / B.toNat < 2 :=
        (Nat.div_lt_iff_lt_mul hbn).mpr (by omega)
      omega
    rw [if_neg hstep]
    unfold capsFrom
    rw [hn, show List.range 1 = [0] from rfl]
    simp only [List.map_cons, List.map_nil]
    show [min (C + (Int.ofNat 0 + 1) * B) T] = [min (C + B) T]
    norm_num

theorem capsFrom_ne_nil (B C T : Int) (hB : 1 ≤ B) (hCT : C < T) :
    capsFrom B C T ≠ [] := by
  rw [capsFrom_cons B C T hB hCT]
  simp

theorem capsFrom_getLast (B T : Int) (hB : 1 ≤ B) :
    ∀ n prev, prev < T → (T - prev).toNat ≤ n →
      (capsFrom B prev T).getLast? = some T := by
  intro n
  induction n with
  | zero => intro prev h1 h2; omega
  | succ n ih =>
    intro prev h1 h2
    rw [capsFrom_cons B prev T hB h1]
    by_cases hstep : prev + B < T
    · rw [if_pos hstep]
      have hlast := ih (prev + B) hstep (by omega)
      cases hcc : capsFrom B (prev + B) T with
      | nil => exact absurd hcc (capsFrom_ne_nil B (prev + B) T hB hstep)
      | cons x xs =>
        rw [List.getLast?_cons_cons]
        rw [hcc] at hlast
        exact hlast
    · rw [if_neg hstep]
      simp
      omega


theorem scaleLoop_step (w : World) (name : String) (B M0 T : Int) (gas : Nat)
    (prev : Int) (s : St) (hB : 1 ≤ B) (hstep : prev + B < T)
    (hh : w.healthOk name (prev + B) = true) :
    scaleLoop w name B M0 T (gas+1) prev s =
      scaleLoop w name B M0 T gas (prev + B)
        { cloud := applyScale name (prev + B) (if prev + B > M0 then prev + B else M0) s.cloud,
          cache := s.cache,
          evs := s.evs ++ [Ev.scaleAsg name prev (prev + B) (if prev + B > M0 then prev + B else M0),
                           Ev.validate name (prev + B)] } := by
  have hb0 : ¬ B = 0 := by omega
  have hcur : scaleStep B T prev = prev + B := by
    simp only [scaleStep]
    omega
  have hne : ¬ (prev + B = T) := by omega
  by_cases hm : prev + B > M0 <;>
    simp [scaleLoop, hb0, hcur, hm, hne, scale_asg, validateGate, hh, applyScale]

theorem scaleLoop_last (w : World) (name : String) (B M0 T : Int) (gas : Nat)
    (prev : Int) (s : St) (hB : 1 ≤ B) (hstep : ¬ prev + B < T)
    (hh : w.healthOk name T = true) :
    scaleLoop w name B M0 T (gas+1) prev s =
      Step.ok ()
        { cloud := applyScale name T (if T > M0 then T else M0) s.cloud,
          cache := s.cache,
          evs := s.evs ++ [Ev.scaleAsg name prev T (if T > M0 then T else M0),
                           Ev.validate name T] } := by
  have hb0 : ¬ B = 0 := by omega
  have hcur : scaleStep B T prev = T := by
    simp only [scaleStep]
    omega
  by_cases hm : T > M0 <;>
    simp [scaleLoop, hb0, hcur, hm, scale_asg, validateGate, hh, applyScale]

theorem scaleLoop_spec (w : World) (name : String) (B M0 T : Int) (hB : 1 ≤ B) :
    ∀ gas, ∀ prev s, prev < T → (T - prev).toNat ≤ gas →
      (∀ c ∈ capsFrom B prev T, w.healthOk name c = true) →
      ∃ cloud', scaleLoop w name B M0 T gas prev s =
        Step.ok () { cloud := cloud', cache := s.cache,
                     evs := s.evs ++ scaleTraceSpec name M0 prev (capsFrom B prev T) } := by
  intro gas
  induction gas with
  | zero => intro prev s h1 h2 _; omega
  | succ gas ih =>
    intro prev s h1 h2 hh
    have hcaps := capsFrom_cons B prev T hB h1
    by_cases hstep : prev + B < T
    · rw [if_pos hstep] at hcaps
      have hmin : min (prev + B) T = prev + B := min_eq_left (le_of_lt hstep)
      rw [hmin] at hcaps
      have hhd : w.healthOk name (prev + B) = true := by
        apply hh
        rw [hcaps]
        exact List.mem_cons_self _ _
      rw [scaleLoop_step w name B M0 T gas prev s hB hstep hhd]
      obtain ⟨cloud', hrec⟩ := ih (prev + B)
        { cloud := applyScale name (prev + B) (if prev + B > M0 then prev + B else M0) s.cloud,
          cache := s.cache,
          evs := s.evs ++ [Ev.scaleAsg name prev (prev + B) (if prev + B > M0 then prev + B else M0),
                           Ev.validate name (prev + B)] }
        hstep (by omega)
        (fun c hc => hh c (by rw [hcaps]; exact List.mem_cons_of_mem _ hc))
      rw [hrec]
      refine ⟨cloud', ?_⟩
      rw [hcaps]
      simp [scaleTraceSpec, scaleBlockSpec, List.append_assoc]
    · rw [if_neg hstep] at hcaps
      have hmin : min (prev + B) T = T := min_eq_right (by omega)
      rw [hmin] at hcaps
      have hhd : w.healthOk name T = true := by
        apply hh
        rw [hcaps]
        exact List.mem_cons_self _ _
      rw [scaleLoop_last w name B M0 T gas prev s hB hstep hhd]
      refine ⟨applyScale name T (if T > M0 then T else M0) s.cloud, ?_⟩
      rw [hcaps]
      simp [scaleTraceSpec, scaleBlockSpec, List.append_assoc]

/-- Claim C5.  In a fresh rollout (no desired-capacity tag) with batch size
B at least 1 and B smaller than the outdated count (so smaller than T - C),
scale_up_asg resumes stale suspensions, writes the three state tags, and
then issues exactly the scaling sequence through the intermediate desired
capacities C+B, C+2B, ..., clipped at T (`capsFrom`), validating cluster
health after every scaling call and before the next one
(`scaleTraceSpec`), raising MaxSize to an increment only when it exceeds
the group's original MaxSize (`scaleBlockSpec`); the first issued capacity
is C+B, strictly below T, so the capacity never jumps from C to T in one
step, and the last issued capacity is T. -/
theorem c5_batch_scale_up_sequence (w : World) (cfg : Config) (asg : Asg)
    (count : Nat) (s : St)
    (hfresh : optTruthy (get_asg_tag asg.tags ASG_DESIRED_STATE_TAG) = false)
    (hB : 1 ≤ cfg.batchSize)
    (hBlt : cfg.batchSize < (count : Int))
    (hh : ∀ c ∈ capsFrom cfg.batchSize asg.desiredCapacity (asg.desiredCapacity + count),
        w.healthOk asg.name c = true) :
    (∃ cloud',
      scale_up_asg w cfg asg count s =
        Step.ok (asg.desiredCapacity + count, asg.desiredCapacity, asg.maxSize)
          { cloud := cloud', cache := s.cache,
            evs := s.evs ++
              [Ev.resumeProcesses asg.name,
               Ev.saveTag asg.name ASG_ORIG_CAPACITY_TAG asg.desiredCapacity,
               Ev.saveTag asg.name ASG_DESIRED_STATE_TAG (asg.desiredCapacity + count),
               Ev.saveTag asg.name ASG_ORIG_MAX_CAPACITY_TAG asg.maxSize] ++
              scaleTraceSpec asg.name asg.maxSize asg.desiredCapacity
                (capsFrom cfg.batchSize asg.desiredCapacity (asg.desiredCapacity + count)) }) ∧
    (capsFrom cfg.batchSize asg.desiredCapacity (asg.desiredCapacity + count)).head? =
      some (asg.desiredCapacity + cfg.batchSize) ∧
    asg.desiredCapacity + cfg.batchSize < asg.desiredCapacity + count ∧
    (capsFrom cfg.batchSize asg.desiredCapacity (asg.desiredCapacity + count)).getLast? =
      some (asg.desiredCapacity + count) := by
  have hne : ¬ (asg.desiredCapacity + (count : Int) = asg.desiredCapacity) := by omega
  have hT : asg.desiredCapacity < asg.desiredCapacity + (count : Int) := by omega
  refine ⟨?_, ?_, by omega, ?_⟩
  · obtain ⟨cloud', hrec⟩ := scaleLoop_spec w asg.name cfg.batchSize asg.maxSize
      (asg.desiredCapacity + (count : Int)) hB
      ((asg.desiredCapacity + (count : Int)) - asg.desiredCapacity).toNat
      asg.desiredCapacity
      { cloud :=
          List.map
            (fun p =>
              if p.1 = asg.name then
                (p.1,
                  { desired := p.2.desired, maxSize := p.2.maxSize,
                    tags := dictInsert p.2.tags ASG_ORIG_MAX_CAPACITY_TAG (toString asg.maxSize) })
              else p)
            (List.map
              (fun p =>
                if p.1 = asg.name then
                  (p.1,
                    { desired := p.2.desired, maxSize := p.2.maxSize,
                      tags := dictInsert p.2.tags ASG_DESIRED_STATE_TAG
                        (toString (asg.desiredCapacity + (count : Int))) })
                else p)
              (List.map
                (fun p =>
                  if p.1 = asg.name then
                    (p.1,
                      { desired := p.2.desired, maxSize := p.2.maxSize,
                        tags := dictInsert p.2.tags ASG_ORIG_CAPACITY_TAG
                          (toString asg.desiredCapacity) })
                  else p)
                s.cloud)),
        cache := s.cache,
        evs := s.evs ++ [Ev.resumeProcesses asg.name] ++
          [Ev.saveTag asg.name ASG_ORIG_CAPACITY_TAG asg.desiredCapacity] ++
          [Ev.saveTag asg.name ASG_DESIRED_STATE_TAG (asg.desiredCapacity + (count : Int))] ++
          [Ev.saveTag asg.name ASG_ORIG_MAX_CAPACITY_TAG asg.maxSize] }
      hT (le_refl _) hh
    refine ⟨cloud', ?_⟩
    simp only [scale_up_asg, modify_aws_autoscaling, save_asg_tags, setTag, hne, hfresh,
      bind_apply, pure_apply, emit_apply, modCloud_apply, if_neg, if_false, Bool.false_eq_true,
      reduceIte]
    rw [hrec]
    simp [List.append_assoc]
  · rw [capsFrom_cons cfg.batchSize asg.desiredCapacity (asg.desiredCapacity + count) hB hT,
      if_pos (by omega)]
    simp [min_eq_left (by omega : asg.desiredCapacity + cfg.batchSize ≤ asg.desiredCapacity + (count : Int))]
  · exact capsFrom_getLast cfg.batchSize (asg.desiredCapacity + count) hB
      ((asg.desiredCapacity + (count : Int)) - asg.desiredCapacity).toNat
      asg.desiredCapacity hT (le_refl _)

/-- Witness for claim C5: group at desired 3 / max 3, batch size 2, four
outdated instances (target 7): the issued capacities are 5 then 7, health
is validated after each, and MaxSize tracks the increments above 3. -/
theorem c5_witness :
    (∃ cloud',
      scale_up_asg fxWorld fxCfgBatch fxAsg 4 (initSt fxPlan1) =
        Step.ok (fxAsg.desiredCapacity + 4, fxAsg.desiredCapacity, fxAsg.maxSize)
          { cloud := cloud', cache := (initSt fxPlan1).cache,
            evs := (initSt fxPlan1).evs ++
              [Ev.resumeProcesses fxAsg.name,
               Ev.saveTag fxAsg.name ASG_ORIG_CAPACITY_TAG fxAsg.desiredCapacity,
               Ev.saveTag fxAsg.name ASG_DESIRED_STATE_TAG (fxAsg.desiredCapacity + 4),
               Ev.saveTag fxAsg.name ASG_ORIG_MAX_CAPACITY_TAG fxAsg.maxSize] ++
              scaleTraceSpec fxAsg.name fxAsg.maxSize fxAsg.desiredCapacity
                (capsFrom fxCfgBatch.batchSize fxAsg.desiredCapacity (fxAsg.desiredCapacity + 4)) }) ∧
    (capsFrom fxCfgBatch.batchSize fxAsg.desiredCapacity (fxAsg.desiredCapacity + 4)).head? =
      some (fxAsg.desiredCapacity + fxCfgBatch.batchSize) ∧
    fxAsg.desiredCapacity + fxCfgBatch.batchSize < fxAsg.desiredCapacity + 4 ∧
    (capsFrom fxCfgBatch.batchSize fxAsg.desiredCapacity (fxAsg.desiredCapacity + 4)).getLast? =
      some (fxAsg.desiredCapacity + 4) :=
  c5_batch_scale_up_sequence fxWorld fxCfgBatch fxAsg 4 (initSt fxPlan1)
    (by decide) (by decide) (by decide) (by decide)

/-! Helper lemmas for the retirement loop. -/

theorem alookup_dictInsert_self {β : Type} (l : List (String × β)) (k : String) (v : β) :
    alookup (dictInsert l k v) k = some v := by
  induction l with
  | nil => simp [dictInsert, alookup]
  | cons x xs ih =>
    obtain ⟨a, b⟩ := x
    by_cases h : a = k <;> simp [dictInsert, alookup, h, ih]

theorem alookup_dictInsert_ne {β : Type} (l : List (String × β)) (k k' : String) (v : β)
    (h : ¬ k' = k) :
    alookup (dictInsert l k v) k' = alookup l k' := by
  have h' : ¬ k = k' := fun hc => h hc.symm
  induction l with
  | nil => simp [dictInsert, alookup, h']
  | cons x xs ih =>
    obtain ⟨a, b⟩ := x
    by_cases ha : a = k <;> by_cases ha' : a = k' <;>
      simp_all [dictInsert, alookup]

theorem alookup_mapIfName (f : AsgCloud → AsgCloud) (name k : String)
    (cloud : List (String × AsgCloud)) :
    alookup (cloud.map (fun p => if p.1 = name then (p.1, f p.2) else p)) k =
      if k = name then (alookup cloud k).map f else alookup cloud k := by
  induction cloud with
  | nil => by_cases h : k = name <;> simp [alookup, h]
  | cons x xs ih =>
    obtain ⟨a, b⟩ := x
    simp only [List.map_cons]
    by_cases ha : a = name
    · subst ha
      rw [if_pos rfl]
      by_cases hk : k = a
      · subst hk
        simp [alookup, ih]
      · have hk' : ¬ a = k := fun hc => hk hc.symm
        simp [alookup, hk, hk', ih]
    · rw [if_neg ha]
      by_cases hak : a = k
      · subst hak
        have hk : ¬ a = name := ha
        simp [alookup, hk]
      · by_cases hk : k = name
        · subst hk
          simp [alookup, ha, hak, ih]
        · simp [alookup, ha, hak, hk, ih]

theorem cacheAfterResolve_self (w : World) (cache : List (String × String)) (iid nm : String)
    (h : nodeOf w cache iid = some nm) :
    alookup (cacheAfterResolve w cache iid) iid = some nm := by
  unfold nodeOf at h
  unfold cacheAfterResolve
  split
  next hc =>
    rw [hc] at h
    simp at h
    rw [hc]
    simp [h]
  next hc =>
    rw [hc] at h
    simp at h
    split
    next hr => rw [hr] at h; simp at h; subst h; exact alookup_dictInsert_self cache iid _
    next hr => rw [hr] at h; simp at h


theorem alookup_setCloudTag (name key value k : String) (cloud : List (String × AsgCloud)) :
    alookup (setCloudTag name key value cloud) k =
      if k = name then (alookup cloud k).map (setTag key value) else alookup cloud k :=
  alookup_mapIfName (setTag key value) name k cloud

theorem cacheAfterResolve_ne (w : World) (cache : List (String × String)) (iid k : String)
    (h : ¬ k = iid) :
    alookup (cacheAfterResolve w cache iid) k = alookup cache k := by
  unfold cacheAfterResolve
  cases alookup cache iid with
  | some nm => rfl
  | none =>
    cases listResolve w.nodes iid with
    | some nm => exact alookup_dictInsert_ne cache iid k nm h
    | none => rfl

theorem nodeOf_congr (w : World) (c1 c2 : List (String × String)) (iid : String)
    (h : alookup c1 iid = alookup c2 iid) :
    nodeOf w c1 iid = nodeOf w c2 iid := by
  unfold nodeOf
  rw [h]

theorem nodeOf_none_cache (w : World) (cache : List (String × String)) (iid : String)
    (h : nodeOf w cache iid = none) :
    alookup cache iid = none := by
  unfold nodeOf at h
  cases hc : alookup cache iid with
  | none => rfl
  | some nm => rw [hc] at h; simp at h

theorem nodeOf_none_list (w : World) (cache : List (String × String)) (iid : String)
    (h : nodeOf w cache iid = none) :
    listResolve w.nodes iid = none := by
  have hc := nodeOf_none_cache w cache iid h
  unfold nodeOf at h
  rw [hc] at h
  exact h

theorem evictAll_ok (w : World) : ∀ (ps : List Pod) (s : St),
    (∀ p ∈ ps, isDaemonPod p = true ∨ w.evictOk p.name p.ns = true) →
    evictAll w ps s = Step.ok () { s with evs := s.evs ++ evictTraceOf w ps } := by
  intro ps
  induction ps with
  | nil => intro s h; simp [evictAll, evictTraceOf]
  | cons p rest ih =>
    intro s h
    by_cases hd : isDaemonPod p
    · rw [show evictAll w (p :: rest) s = evictAll w rest s by simp [evictAll, hd]]
      rw [ih s (fun q hq => h q (List.mem_cons_of_mem _ hq))]
      simp [evictTraceOf, hd]
    · have hok : w.evictOk p.name p.ns = true := by
        rcases h p (List.mem_cons_self _ _) with hh | hh
        · exact absurd hh (by simpa using hd)
        · exact hh
      have hstep : evictAll w (p :: rest) s =
          evictAll w rest { s with evs := s.evs ++ [Ev.evictPod p.name p.ns] } := by
        simp [evictAll, hd, hok]
      rw [hstep, ih _ (fun q hq => h q (List.mem_cons_of_mem _ hq))]
      simp [evictTraceOf, hd, hok, List.append_assoc]

theorem evictAll_fail (w : World) : ∀ (ps : List Pod) (s : St) (q : Pod),
    firstEvictFail w ps = some q →
    evictAll w ps s =
      Step.err (Err.evictionFailed q.name q.ns) { s with evs := s.evs ++ evictTraceOf w ps } := by
  intro ps
  induction ps with
  | nil => intro s q h; simp [firstEvictFail] at h
  | cons p rest ih =>
    intro s q h
    by_cases hd : isDaemonPod p
    · rw [show evictAll w (p :: rest) s = evictAll w rest s by simp [evictAll, hd]]
      rw [ih s q (by simpa [firstEvictFail, hd] using h)]
      simp [evictTraceOf, hd]
    · by_cases hok : w.evictOk p.name p.ns
      · have hstep : evictAll w (p :: rest) s =
            evictAll w rest { s with evs := s.evs ++ [Ev.evictPod p.name p.ns] } := by
          simp [evictAll, hd, hok]
        rw [hstep, ih _ q (by simpa [firstEvictFail, hd, hok] using h)]
        simp [evictTraceOf, hd, hok, List.append_assoc]
      · have hq : q = p := by simpa [firstEvictFail, hd, hok] using h.symm
        subst hq
        simp [evictAll, hd, hok, evictTraceOf]

theorem drainAllOk_true (w : World) (nm : String) (h : drainAllOk w nm = true) :
    ∀ p ∈ w.podsOn nm, isDaemonPod p = true ∨ w.evictOk p.name p.ns = true := by
  intro p hp
  have := (List.all_eq_true.mp h) p hp
  rcases Bool.or_eq_true_iff.mp (by simpa using this) with hh | hh
  · exact Or.inl hh
  · exact Or.inr hh

theorem firstEvictFail_of_not_all (w : World) : ∀ ps : List Pod,
    (ps.all (fun p => isDaemonPod p || w.evictOk p.name p.ns)) = false →
    ∃ q, firstEvictFail w ps = some q := by
  intro ps
  induction ps with
  | nil => intro h; simp at h
  | cons p rest ih =>
    intro h
    by_cases hd : isDaemonPod p
    · simp only [List.all_cons, hd, Bool.true_or, Bool.true_and] at h
      obtain ⟨q, hq⟩ := ih h
      exact ⟨q, by simpa [firstEvictFail, hd] using hq⟩
    · by_cases hok : w.evictOk p.name p.ns
      · simp only [List.all_cons, hd, hok, Bool.or_true, Bool.true_and] at h
        obtain ⟨q, hq⟩ := ih h
        exact ⟨q, by simpa [firstEvictFail, hd, hok] using hq⟩
      · exact ⟨p, by simp [firstEvictFail, hd, hok]⟩

theorem drainAllOk_false (w : World) (nm : String) (h : drainAllOk w nm = false) :
    ∃ q, firstEvictFail w (w.podsOn nm) = some q :=
  firstEvictFail_of_not_all w (w.podsOn nm) h

theorem drain_node_ok (w : World) (nm : String) (s : St) (h : drainAllOk w nm = true) :
    drain_node w nm s =
      Step.ok () { s with evs := s.evs ++ (Ev.drainAttempt nm :: evictTraceOf w (w.podsOn nm)) } := by
  have hstep : drain_node w nm s =
      evictAll w (w.podsOn nm) { s with evs := s.evs ++ [Ev.drainAttempt nm] } := by
    simp [drain_node]
  rw [hstep, evictAll_ok w _ _ (drainAllOk_true w nm h)]
  simp [List.append_assoc]

theorem drain_node_fail (w : World) (nm : String) (s : St) (h : drainAllOk w nm = false) :
    ∃ e, drain_node w nm s =
      Step.err e { s with evs := s.evs ++ (Ev.drainAttempt nm :: evictTraceOf w (w.podsOn nm)) } := by
  obtain ⟨q, hq⟩ := drainAllOk_false w nm h
  refine ⟨Err.evictionFailed q.name q.ns, ?_⟩
  have hstep : drain_node w nm s =
      evictAll w (w.podsOn nm) { s with evs := s.evs ++ [Ev.drainAttempt nm] } := by
    simp [drain_node]
  rw [hstep, evictAll_fail w _ _ q hq]
  simp [List.append_assoc]

theorem resolveIncluded_ok (w : World) (iid : String) (s : St) (nm : String)
    (h : nodeOf w s.cache iid = some nm) :
    resolveIncluded w iid s = Step.ok nm { s with cache := cacheAfterResolve w s.cache iid } := by
  unfold resolveIncluded nodeOf at *
  cases hc : alookup s.cache iid with
  | some nm0 =>
    rw [hc] at h
    simp at h
    subst h
    simp [hc, cacheAfterResolve]
  | none =>
    rw [hc] at h
    cases hr : listResolve w.nodes iid with
    | none => rw [hr] at h; simp at h
    | some nm1 =>
      rw [hr] at h
      simp at h
      subst h
      simp [hc, hr, get_node_by_instance_id, cacheAfterResolve]

theorem resolveIncluded_fail (w : World) (iid : String) (s : St)
    (h : nodeOf w s.cache iid = none) :
    resolveIncluded w iid s = Step.err (Err.nodeNotFound iid) s := by
  have hc := nodeOf_none_cache w s.cache iid h
  have hr := nodeOf_none_list w s.cache iid h
  simp [resolveIncluded, hc, hr, get_node_by_instance_id]

theorem retireOne_retired (w : World) (cfg : Config) (asgName iid : String)
    (d : Int) (r : Nat) (s : St) (nm : String)
    (hres : nodeOf w s.cache iid = some nm) (hdr : drainAllOk w nm = true) :
    retireOne w cfg asgName iid d r s =
      Step.ok (d - 1, if cfg.useAsgTerminationPolicy then r else r + 1)
        { cloud := setCloudTag asgName ASG_DESIRED_STATE_TAG (toString (d - 1)) s.cloud,
          cache := cacheAfterResolve w s.cache iid,
          evs := s.evs ++
            ((Ev.drainAttempt nm :: evictTraceOf w (w.podsOn nm)) ++
             [Ev.deleteNode nm, Ev.saveTag asgName ASG_DESIRED_STATE_TAG (d - 1)] ++
             (if cfg.useAsgTerminationPolicy then [] else [Ev.terminate iid])) } := by
  unfold retireOne
  rw [resolveIncluded_ok w iid s nm hres]
  dsimp only
  rw [drain_node_ok w nm _ hdr]
  by_cases hpol : cfg.useAsgTerminationPolicy <;>
    simp [delete_node, save_asg_tags, terminate_instance_in_asg, setCloudTag, setTag,
      hpol, List.append_assoc]

theorem retireOne_drainfail (w : World) (cfg : Config) (asgName iid : String)
    (d : Int) (r : Nat) (s : St) (nm : String)
    (hres : nodeOf w s.cache iid = some nm) (hdr : drainAllOk w nm = false) :
    retireOne w cfg asgName iid d r s =
      Step.ok (d - 1, r)
        { cloud := s.cloud,
          cache := cacheAfterResolve w s.cache iid,
          evs := s.evs ++ (Ev.drainAttempt nm :: evictTraceOf w (w.podsOn nm)) } := by
  unfold retireOne
  rw [resolveIncluded_ok w iid s nm hres]
  dsimp only
  obtain ⟨e, hdrain⟩ := drain_node_fail w nm
    { s with cache := cacheAfterResolve w s.cache iid } hdr
  rw [hdrain]
  simp [retireHandler, cacheLookup, cacheAfterResolve_self w s.cache iid nm hres]

theorem retireOne_excluded (w : World) (cfg : Config) (asgName iid : String)
    (d : Int) (r : Nat) (s : St) (nm : String)
    (hres : nodeOf w s.cache iid = none) (hex : listResolve w.exNodes iid = some nm) :
    retireOne w cfg asgName iid d r s =
      Step.ok (d, r) { s with cache := dictInsert s.cache iid nm } := by
  unfold retireOne
  rw [resolveIncluded_fail w iid s hres]
  dsimp only
  simp [retireHandler, cacheLookup, nodeOf_none_cache w s.cache iid hres,
    get_node_by_instance_id, hex]


theorem tags_map_self (o : Option AsgCloud) :
    ∃ tg, o = Option.map (fun a => { a with tags := tg }) o := by
  cases o with
  | none => exact ⟨[], rfl⟩
  | some a => exact ⟨a.tags, rfl⟩

theorem retireBlocksG_congr (w : World) (cfg : Config) (asgName : String)
    (c1 c2 : List (String × String)) :
    ∀ (l : List Inst) (d : Int),
    (∀ i ∈ l, nodeOf w c1 i.instanceId = nodeOf w c2 i.instanceId) →
    retireBlocksG w cfg asgName c1 l d = retireBlocksG w cfg asgName c2 l d := by
  intro l
  induction l with
  | nil => intro d _; rfl
  | cons i rest ih =>
    intro d h
    have hi := h i (List.mem_cons_self _ _)
    unfold retireBlocksG
    rw [hi]
    cases nodeOf w c2 i.instanceId with
    | none => exact ih d (fun j hj => h j (List.mem_cons_of_mem _ hj))
    | some nm => rw [ih (d - 1) (fun j hj => h j (List.mem_cons_of_mem _ hj))]

theorem resolvedCount_congr (w : World) (c1 c2 : List (String × String)) :
    ∀ l : List Inst,
    (∀ i ∈ l, nodeOf w c1 i.instanceId = nodeOf w c2 i.instanceId) →
    resolvedCount w c1 l = resolvedCount w c2 l := by
  intro l
  induction l with
  | nil => intro _; rfl
  | cons i rest ih =>
    intro h
    have hi := h i (List.mem_cons_self _ _)
    unfold resolvedCount at ih ⊢
    rw [List.filter_cons, List.filter_cons, hi]
    cases hval : (nodeOf w c2 i.instanceId).isSome <;>
      simp only [hval, Bool.false_eq_true, reduceIte, List.length_cons] <;>
      rw [ih (fun j hj => h j (List.mem_cons_of_mem _ hj))]

theorem retireLoop_spec (w : World) (cfg : Config) (asgName : String) :
    ∀ (l : List Inst) (d : Int) (r : Nat) (s : St),
    (l.map (fun i => i.instanceId)).Nodup →
    (∀ i ∈ l, nodeOf w s.cache i.instanceId = none →
        (listResolve w.exNodes i.instanceId).isSome = true) →
    r + l.length ≤ cfg.parallelNodesCount →
    ∃ cloud' cache',
      (retireLoop w cfg asgName l d r s =
        Step.ok (d - resolvedCount w s.cache l)
          { cloud := cloud', cache := cache',
            evs := s.evs ++ retireBlocksG w cfg asgName s.cache l d }) ∧
      (∀ k, (∀ i ∈ l, ¬ k = i.instanceId) → alookup cache' k = alookup s.cache k) ∧
      (∀ nm', ¬ nm' = asgName → alookup cloud' nm' = alookup s.cloud nm') ∧
      (∃ tg, alookup cloud' asgName =
        Option.map (fun a => { a with tags := tg }) (alookup s.cloud asgName)) := by
  intro l
  induction l with
  | nil =>
    intro d r s _ _ _
    refine ⟨s.cloud, s.cache, ?_, fun k _ => rfl, fun nm' _ => rfl, tags_map_self _⟩
    simp [retireLoop, resolvedCount, retireBlocksG]
  | cons i rest ih =>
    intro d r s hnodup hexc hpar
    have hthr : ¬ r ≥ cfg.parallelNodesCount := by
      simp only [List.length_cons] at hpar
      omega
    have hnd : (∀ x ∈ rest, ¬ x.instanceId = i.instanceId) ∧
        (rest.map (fun j => j.instanceId)).Nodup := by simpa using hnodup
    have hnodup' := hnd.2
    have hrestid := hnd.1
    cases hres : nodeOf w s.cache i.instanceId with
    | some nm =>
      have hcacheKeep : ∀ j ∈ rest,
          alookup (cacheAfterResolve w s.cache i.instanceId) j.instanceId =
            alookup s.cache j.instanceId :=
        fun j hj => cacheAfterResolve_ne w s.cache i.instanceId j.instanceId (hrestid j hj)
      cases hdr : drainAllOk w nm with
      | true =>
        have hone := retireOne_retired w cfg asgName i.instanceId d r s nm hres hdr
        have hloop : retireLoop w cfg asgName (i :: rest) d r s =
            retireLoop w cfg asgName rest (d - 1)
              (if cfg.useAsgTerminationPolicy then r else r + 1)
              { cloud := setCloudTag asgName ASG_DESIRED_STATE_TAG (toString (d - 1)) s.cloud,
                cache := cacheAfterResolve w s.cache i.instanceId,
                evs := s.evs ++
                  ((Ev.drainAttempt nm :: evictTraceOf w (w.podsOn nm)) ++
                   [Ev.deleteNode nm, Ev.saveTag asgName ASG_DESIRED_STATE_TAG (d - 1)] ++
                   (if cfg.useAsgTerminationPolicy then [] else [Ev.terminate i.instanceId])) } := by
          conv_lhs => rw [retireLoop]
          simp only [hone, if_neg hthr]
        set blk : List Ev :=
          (Ev.drainAttempt nm :: evictTraceOf w (w.podsOn nm)) ++
            [Ev.deleteNode nm, Ev.saveTag asgName ASG_DESIRED_STATE_TAG (d - 1)] ++
            (if cfg.useAsgTerminationPolicy then [] else [Ev.terminate i.instanceId]) with hblk
        set s1 : St :=
          { cloud := setCloudTag asgName ASG_DESIRED_STATE_TAG (toString (d - 1)) s.cloud,
            cache := cacheAfterResolve w s.cache i.instanceId,
            evs := s.evs ++ blk } with hs1
        have hnodemid : ∀ j ∈ rest, nodeOf w s1.cache j.instanceId = nodeOf w s.cache j.instanceId :=
          fun j hj => nodeOf_congr w s1.cache s.cache j.instanceId (hcacheKeep j hj)
        obtain ⟨cloud', cache', hrec, hcp, hclp, htg⟩ := ih (d - 1)
          (if cfg.useAsgTerminationPolicy then r else r + 1) s1
          hnodup'
          (fun j hj hn => hexc j (List.mem_cons_of_mem _ hj) (by rw [← hnodemid j hj]; exact hn))
          (by
            simp only [List.length_cons] at hpar
            split <;> omega)
        have hcnt2 : resolvedCount w s1.cache rest = resolvedCount w s.cache rest :=
          resolvedCount_congr w s1.cache s.cache rest hnodemid
        have hblocks2 : retireBlocksG w cfg asgName s1.cache rest (d - 1) =
            retireBlocksG w cfg asgName s.cache rest (d - 1) :=
          retireBlocksG_congr w cfg asgName s1.cache s.cache rest (d - 1) hnodemid
        have hcnt : resolvedCount w s.cache (i :: rest) = resolvedCount w s.cache rest + 1 := by
          unfold resolvedCount
          rw [List.filter_cons]
          simp [hres]
        have hblocksCons : retireBlocksG w cfg asgName s.cache (i :: rest) d =
            blk ++ retireBlocksG w cfg asgName s.cache rest (d - 1) := by
          rw [hblk]
          conv_lhs => rw [retireBlocksG]
          rw [hres]
          simp only [hdr, reduceIte]
        have hevs1 : s1.evs = s.evs ++ blk := by rw [hs1]
        refine ⟨cloud', cache', ?_, ?_, ?_, ?_⟩
        · rw [hloop, hrec, hcnt2, hblocks2, hevs1, hcnt, hblocksCons]
          congr 1
          · push_cast
            omega
          · simp [List.append_assoc]
        · intro k hk
          rw [hcp k (fun j hj => hk j (List.mem_cons_of_mem _ hj))]
          rw [show s1.cache = cacheAfterResolve w s.cache i.instanceId from by rw [hs1]]
          exact cacheAfterResolve_ne w s.cache i.instanceId k (hk i (List.mem_cons_self _ _))
        · intro nm' hnm
          rw [hclp nm' hnm]
          rw [show s1.cloud = setCloudTag asgName ASG_DESIRED_STATE_TAG (toString (d - 1)) s.cloud
            from by rw [hs1]]
          rw [alookup_setCloudTag]
          rw [if_neg hnm]
        · obtain ⟨tg, htg'⟩ := htg
          refine ⟨tg, ?_⟩
          rw [htg']
          rw [show s1.cloud = setCloudTag asgName ASG_DESIRED_STATE_TAG (toString (d - 1)) s.cloud
            from by rw [hs1]]
          rw [alookup_setCloudTag]
          rw [if_pos rfl]
          cases alookup s.cloud asgName with
          | none => rfl
          | some a0 => rfl
      | false =>
        have hone := retireOne_drainfail w cfg asgName i.instanceId d r s nm hres hdr
        have hloop : retireLoop w cfg asgName (i :: rest) d r s =
            retireLoop w cfg asgName rest (d - 1) r
              { cloud := s.cloud,
                cache := cacheAfterResolve w s.cache i.instanceId,
                evs := s.evs ++ (Ev.drainAttempt nm :: evictTraceOf w (w.podsOn nm)) } := by
          conv_lhs => rw [retireLoop]
          simp only [hone, if_neg hthr]
        set blk : List Ev := Ev.drainAttempt nm :: evictTraceOf w (w.podsOn nm) with hblk
        set s1 : St :=
          { cloud := s.cloud,
            cache := cacheAfterResolve w s.cache i.instanceId,
            evs := s.evs ++ blk } with hs1
        have hnodemid : ∀ j ∈ rest, nodeOf w s1.cache j.instanceId = nodeOf w s.cache j.instanceId :=
          fun j hj => nodeOf_congr w s1.cache s.cache j.instanceId (hcacheKeep j hj)
        obtain ⟨cloud', cache', hrec, hcp, hclp, htg⟩ := ih (d - 1) r s1
          hnodup'
          (fun j hj hn => hexc j (List.mem_cons_of_mem _ hj) (by rw [← hnodemid j hj]; exact hn))
          (by simp only [List.length_cons] at hpar; omega)
        have hcnt2 : resolvedCount w s1.cache rest = resolvedCount w s.cache rest :=
          resolvedCount_congr w s1.cache s.cache rest hnodemid
        have hblocks2 : retireBlocksG w cfg asgName s1.cache rest (d - 1) =
            retireBlocksG w cfg asgName s.cache rest (d - 1) :=
          retireBlocksG_congr w cfg asgName s1.cache s.cache rest (d - 1) hnodemid
        have hcnt : resolvedCount w s.cache (i :: rest) = resolvedCount w s.cache rest + 1 := by
          unfold resolvedCount
          rw [List.filter_cons]
          simp [hres]
        have hblocksCons : retireBlocksG w cfg asgName s.cache (i :: rest) d =
            blk ++ retireBlocksG w cfg asgName s.cache rest (d - 1) := by
          rw [hblk]
          conv_lhs => rw [retireBlocksG]
          rw [hres]
          simp only [hdr, Bool.false_eq_true, reduceIte]
        have hevs1 : s1.evs = s.evs ++ blk := by rw [hs1]
        refine ⟨cloud', cache', ?_, ?_, ?_, ?_⟩
        · rw [hloop, hrec, hcnt2, hblocks2, hevs1, hcnt, hblocksCons]
          congr 1
          · push_cast
            omega
          · simp [List.append_assoc]
        · intro k hk
          rw [hcp k (fun j hj => hk j (List.mem_cons_of_mem _ hj))]
          rw [show s1.cache = cacheAfterResolve w s.cache i.instanceId from by rw [hs1]]
          exact cacheAfterResolve_ne w s.cache i.instanceId k (hk i (List.mem_cons_self _ _))
        · intro nm' hnm
          rw [hclp nm' hnm]
        · obtain ⟨tg, htg'⟩ := htg
          exact ⟨tg, htg'⟩
    | none =>
      have hsome := hexc i (List.mem_cons_self _ _) hres
      obtain ⟨nm, hex⟩ := Option.isSome_iff_exists.mp hsome
      have hone := retireOne_excluded w cfg asgName i.instanceId d r s nm hres hex
      have hloop : retireLoop w cfg asgName (i :: rest) d r s =
          retireLoop w cfg asgName rest d r
            { s with cache := dictInsert s.cache i.instanceId nm } := by
        conv_lhs => rw [retireLoop]
        simp only [hone, if_neg hthr]
      set s1 : St := { s with cache := dictInsert s.cache i.instanceId nm } with hs1
      have hcacheKeep : ∀ j ∈ rest, alookup s1.cache j.instanceId = alookup s.cache j.instanceId := by
        intro j hj
        rw [show s1.cache = dictInsert s.cache i.instanceId nm from by rw [hs1]]
        exact alookup_dictInsert_ne s.cache i.instanceId j.instanceId nm (hrestid j hj)
      have hnodemid : ∀ j ∈ rest, nodeOf w s1.cache j.instanceId = nodeOf w s.cache j.instanceId :=
        fun j hj => nodeOf_congr w s1.cache s.cache j.instanceId (hcacheKeep j hj)
      obtain ⟨cloud', cache', hrec, hcp, hclp, htg⟩ := ih d r s1
        hnodup'
        (fun j hj hn => hexc j (List.mem_cons_of_mem _ hj) (by rw [← hnodemid j hj]; exact hn))
        (by simp only [List.length_cons] at hpar; omega)
      have hcnt2 : resolvedCount w s1.cache rest = resolvedCount w s.cache rest :=
        resolvedCount_congr w s1.cache s.cache rest hnodemid
      have hblocks2 : retireBlocksG w cfg asgName s1.cache rest d =
          retireBlocksG w cfg asgName s.cache rest d :=
        retireBlocksG_congr w cfg asgName s1.cache s.cache rest d hnodemid
      have hcnt : resolvedCount w s.cache (i :: rest) = resolvedCount w s.cache rest := by
        unfold resolvedCount
        rw [List.filter_cons]
        simp [hres]
      have hblocksCons : retireBlocksG w cfg asgName s.cache (i :: rest) d =
          retireBlocksG w cfg asgName s.cache rest d := by
        conv_lhs => rw [retireBlocksG]
        rw [hres]
      have hevs1 : s1.evs = s.evs := by rw [hs1]
      refine ⟨cloud', cache', ?_, ?_, ?_, ?_⟩
      · rw [hloop, hrec, hcnt2, hblocks2, hevs1, hcnt, hblocksCons]
      · intro k hk
        rw [hcp k (fun j hj => hk j (List.mem_cons_of_mem _ hj))]
        rw [show s1.cache = dictInsert s.cache i.instanceId nm from by rw [hs1]]
        exact alookup_dictInsert_ne s.cache i.instanceId k nm (hk i (List.mem_cons_self _ _))
      · intro nm' hnm
        rw [hclp nm' hnm]
      · obtain ⟨tg, htg'⟩ := htg
        exact ⟨tg, htg'⟩


theorem nodeOf_cacheAfterResolve (w : World) (c : List (String × String)) (iid k : String) :
    nodeOf w (cacheAfterResolve w c iid) k = nodeOf w c k := by
  by_cases hk : k = iid
  · subst hk
    unfold cacheAfterResolve
    cases hc : alookup c k with
    | some nm => rfl
    | none =>
      cases hr : listResolve w.nodes k with
      | some nm =>
        unfold nodeOf
        rw [alookup_dictInsert_self, hc, hr]
      | none => rfl
  · exact nodeOf_congr w _ c k (cacheAfterResolve_ne w c iid k hk)

theorem retireBlocksG_mem_drain (w : World) (cfg : Config) (asgName : String)
    (cache : List (String × String)) :
    ∀ (l : List Inst) (d : Int) (i : Inst) (nm : String), i ∈ l →
      nodeOf w cache i.instanceId = some nm →
      Ev.drainAttempt nm ∈ retireBlocksG w cfg asgName cache l d := by
  intro l
  induction l with
  | nil => intro d i nm h; cases h
  | cons j rest ih =>
    intro d i nm hmem hres
    rcases List.mem_cons.mp hmem with heq | hmem'
    · subst heq
      conv => rw [retireBlocksG]
      rw [hres]
      rcases Bool.eq_false_or_eq_true (drainAllOk w nm) with hb | hb <;>
        simp [hb, List.mem_append]
    · conv => rw [retireBlocksG]
      cases hj : nodeOf w cache j.instanceId with
      | none => exact ih d i nm hmem' hres
      | some nmj =>
        simp only [List.mem_append]
        exact Or.inr (ih (d - 1) i nm hmem' hres)

theorem cordonOne23_spec (w : World) (cfg : Config) (iid : String) (s : St) (nm : String)
    (h : nodeOf w s.cache iid = some nm) :
    cordonOne23 w cfg iid s =
      Step.ok () { cloud := s.cloud, cache := cacheAfterResolve w s.cache iid,
                   evs := s.evs ++ [cordonEv cfg nm] } := by
  unfold cordonOne23
  rw [tryCatch_apply]
  rw [show ((do
      let nm ← resolveIncluded w iid
      if ¬ cfg.taintNodes then cordon_node nm else taint_node nm : M Unit)) s =
    (if ¬ cfg.taintNodes then cordon_node nm else taint_node nm)
      { s with cache := cacheAfterResolve w s.cache iid } from by
    rw [bind_apply, resolveIncluded_ok w iid s nm h]]
  by_cases ht : cfg.taintNodes <;>
    simp [cordon_node, taint_node, cordonEv, ht]

theorem cordonLoop23_spec (w : World) (cfg : Config) :
    ∀ (l : List Inst) (s : St),
    (∀ i ∈ l, (nodeOf w s.cache i.instanceId).isSome = true) →
    ∃ cache',
      (cordonLoop23 w cfg l s = Step.ok ()
        { cloud := s.cloud, cache := cache',
          evs := s.evs ++ l.map (fun i => cordonEv cfg ((nodeOf w s.cache i.instanceId).getD (""))) }) ∧
      (∀ k, nodeOf w cache' k = nodeOf w s.cache k) ∧
      (∀ k, (∀ i ∈ l, ¬ k = i.instanceId) → alookup cache' k = alookup s.cache k) := by
  intro l
  induction l with
  | nil =>
    intro s _
    refine ⟨s.cache, ?_, fun k => rfl, fun k _ => rfl⟩
    simp [cordonLoop23]
  | cons i rest ih =>
    intro s hres
    obtain ⟨nm, hnm⟩ := Option.isSome_iff_exists.mp (hres i (List.mem_cons_self _ _))
    have hone := cordonOne23_spec w cfg i.instanceId s nm hnm
    set s1 : St := { cloud := s.cloud, cache := cacheAfterResolve w s.cache i.instanceId,
                     evs := s.evs ++ [cordonEv cfg nm] } with hs1
    have hinv : ∀ k, nodeOf w s1.cache k = nodeOf w s.cache k := by
      intro k
      rw [show s1.cache = cacheAfterResolve w s.cache i.instanceId from by rw [hs1]]
      exact nodeOf_cacheAfterResolve w s.cache i.instanceId k
    obtain ⟨cache', hrec, hinv', hkp⟩ := ih s1
      (fun j hj => by rw [hinv j.instanceId]; exact hres j (List.mem_cons_of_mem _ hj))
    refine ⟨cache', ?_, ?_, ?_⟩
    · have hloop : cordonLoop23 w cfg (i :: rest) s = cordonLoop23 w cfg rest s1 := by
        conv_lhs => rw [cordonLoop23]
        simp only [hone]
      rw [hloop, hrec]
      have hmap : rest.map (fun j => cordonEv cfg ((nodeOf w s1.cache j.instanceId).getD (""))) =
          rest.map (fun j => cordonEv cfg ((nodeOf w s.cache j.instanceId).getD (""))) := by
        apply List.map_congr_left
        intro j _
        rw [hinv j.instanceId]
      rw [hmap]
      have hevs : s1.evs = s.evs ++ [cordonEv cfg nm] := by rw [hs1]
      rw [hevs]
      simp [hnm, List.append_assoc]
    · intro k
      rw [hinv' k, hinv k]
    · intro k hk
      rw [hkp k (fun j hj => hk j (List.mem_cons_of_mem _ hj))]
      rw [show s1.cache = cacheAfterResolve w s.cache i.instanceId from by rw [hs1]]
      exact cacheAfterResolve_ne w s.cache i.instanceId k (hk i (List.mem_cons_self _ _))

theorem cordonOne14_spec (w : World) (cfg : Config) (iid : String) (s : St) (nm : String)
    (h : nodeOf w s.cache iid = some nm) :
    cordonOne14 w cfg iid s =
      Step.ok () { cloud := s.cloud, cache := cacheAfterResolve w s.cache iid,
                   evs := s.evs ++ [cordonEv cfg nm] } := by
  unfold cordonOne14
  rw [tryCatch_apply]
  rw [show ((do
      let nm ← resolveIncluded w iid
      if ¬ cfg.taintNodes then cordon_node nm else taint_node nm : M Unit)) s =
    (if ¬ cfg.taintNodes then cordon_node nm else taint_node nm)
      { s with cache := cacheAfterResolve w s.cache iid } from by
    rw [bind_apply, resolveIncluded_ok w iid s nm h]]
  by_cases ht : cfg.taintNodes <;>
    simp [cordon_node, taint_node, cordonEv, ht]

theorem cordonLoop14_spec (w : World) (cfg : Config) :
    ∀ (l : List Inst) (s : St),
    (∀ i ∈ l, (nodeOf w s.cache i.instanceId).isSome = true) →
    ∃ cache',
      (cordonLoop14 w cfg l s = Step.ok ()
        { cloud := s.cloud, cache := cache',
          evs := s.evs ++ l.map (fun i => cordonEv cfg ((nodeOf w s.cache i.instanceId).getD (""))) }) ∧
      (∀ k, nodeOf w cache' k = nodeOf w s.cache k) ∧
      (∀ k, (∀ i ∈ l, ¬ k = i.instanceId) → alookup cache' k = alookup s.cache k) := by
  intro l
  induction l with
  | nil =>
    intro s _
    refine ⟨s.cache, ?_, fun k => rfl, fun k _ => rfl⟩
    simp [cordonLoop14]
  | cons i rest ih =>
    intro s hres
    obtain ⟨nm, hnm⟩ := Option.isSome_iff_exists.mp (hres i (List.mem_cons_self _ _))
    have hone := cordonOne14_spec w cfg i.instanceId s nm hnm
    set s1 : St := { cloud := s.cloud, cache := cacheAfterResolve w s.cache i.instanceId,
                     evs := s.evs ++ [cordonEv cfg nm] } with hs1
    have hinv : ∀ k, nodeOf w s1.cache k = nodeOf w s.cache k := by
      intro k
      rw [show s1.cache = cacheAfterResolve w s.cache i.instanceId from by rw [hs1]]
      exact nodeOf_cacheAfterResolve w s.cache i.instanceId k
    obtain ⟨cache', hrec, hinv', hkp⟩ := ih s1
      (fun j hj => by rw [hinv j.instanceId]; exact hres j (List.mem_cons_of_mem _ hj))
    refine ⟨cache', ?_, ?_, ?_⟩
    · have hloop : cordonLoop14 w cfg (i :: rest) s = cordonLoop14 w cfg rest s1 := by
        conv_lhs => rw [cordonLoop14]
        simp only [hone]
      rw [hloop, hrec]
      have hmap : rest.map (fun j => cordonEv cfg ((nodeOf w s1.cache j.instanceId).getD (""))) =
          rest.map (fun j => cordonEv cfg ((nodeOf w s.cache j.instanceId).getD (""))) := by
        apply List.map_congr_left
        intro j _
        rw [hinv j.instanceId]
      rw [hmap]
      have hevs : s1.evs = s.evs ++ [cordonEv cfg nm] := by rw [hs1]
      rw [hevs]
      simp [hnm, List.append_assoc]
    · intro k
      rw [hinv' k, hinv k]
    · intro k hk
      rw [hkp k (fun j hj => hk j (List.mem_cons_of_mem _ hj))]
      rw [show s1.cache = cacheAfterResolve w s.cache i.instanceId from by rw [hs1]]
      exact cacheAfterResolve_ne w s.cache i.instanceId k (hk i (List.mem_cons_self _ _))


theorem sortInner_skip (g : String) (e : PlanEntry) :
    ∀ (plan acc : List PlanEntry),
    acc.any (fun e2 => e2.asg.name = e.asg.name) = true →
    (∀ e2 ∈ plan, e2.asg.name = e.asg.name) →
    sortInner g plan acc = acc := by
  intro plan
  induction plan with
  | nil => intro acc _ _; rfl
  | cons p ps ihp =>
    intro acc hany hall
    have hp : p.asg.name = e.asg.name := hall p (List.mem_cons_self _ _)
    unfold sortInner
    rw [List.foldl_cons]
    rw [if_neg (by
      intro hc
      apply hc.2
      rw [hp]
      exact_mod_cast hany)]
    exact ihp acc hany (fun e2 he2 => hall e2 (List.mem_cons_of_mem _ he2))

theorem sortPlan_keep (e : PlanEntry) :
    ∀ (order : List String) (acc : List PlanEntry),
    acc.any (fun e2 => e2.asg.name = e.asg.name) = true →
    order.foldl (fun acc2 g => sortInner g [e] acc2) acc = acc := by
  intro order
  induction order with
  | nil => intro acc _; rfl
  | cons g os ih =>
    intro acc hany
    rw [List.foldl_cons]
    rw [sortInner_skip g e [e] acc hany (fun e2 he2 => by
      rcases List.mem_singleton.mp he2 with rfl; rfl)]
    exact ih acc hany

theorem sortInner_single_hit (g : String) (e : PlanEntry)
    (hg : strContains e.asg.name g = true) :
    sortInner g [e] [] = [e] := by
  unfold sortInner
  rw [List.foldl_cons]
  rw [if_pos ⟨hg, by simp⟩]
  rfl

theorem sortInner_single_miss (g : String) (e : PlanEntry)
    (hg : ¬ strContains e.asg.name g = true) :
    sortInner g [e] [] = [] := by
  unfold sortInner
  rw [List.foldl_cons]
  rw [if_neg (fun hc => hg hc.1)]
  rfl

theorem sortPlan_single (order : List String) (e : PlanEntry)
    (h : matchesOrder order e.asg.name = true) :
    sortPlan order [e] = [e] := by
  unfold sortPlan
  induction order with
  | nil => simp [matchesOrder] at h
  | cons g os ih =>
    rw [List.foldl_cons]
    by_cases hg : strContains e.asg.name g = true
    · rw [sortInner_single_hit g e hg]
      exact sortPlan_keep e os [e] (by simp)
    · rw [sortInner_single_miss g e hg]
      exact ih (by unfold matchesOrder at h ⊢; simpa [hg] using h)


theorem scaleLoop_B0 (w : World) (name : String) (M0 T : Int) (gas : Nat) (prev : Int)
    (s : St) (hh : w.healthOk name T = true) :
    scaleLoop w name 0 M0 T (gas + 1) prev s =
      Step.ok ()
        { cloud := applyScale name T (if T > M0 then T else M0) s.cloud,
          cache := s.cache,
          evs := s.evs ++ [Ev.scaleAsg name prev T (if T > M0 then T else M0),
                           Ev.validate name T] } := by
  by_cases hm : T > M0 <;>
    simp [scaleLoop, hm, scale_asg, validateGate, hh, applyScale]

theorem scale_up_asg_fresh_B0 (w : World) (cfg : Config) (asg : Asg) (count : Nat) (s : St)
    (hfresh : optTruthy (get_asg_tag asg.tags ASG_DESIRED_STATE_TAG) = false)
    (hB : cfg.batchSize = 0) (hcount : ¬ count = 0)
    (hh : w.healthOk asg.name (asg.desiredCapacity + count) = true) :
    scale_up_asg w cfg asg count s =
      Step.ok (asg.desiredCapacity + count, asg.desiredCapacity, asg.maxSize)
        { cloud :=
            applyScale asg.name (asg.desiredCapacity + count)
              (if asg.desiredCapacity + count > asg.maxSize then asg.desiredCapacity + count
               else asg.maxSize)
              (setCloudTag asg.name ASG_ORIG_MAX_CAPACITY_TAG (toString asg.maxSize)
                (setCloudTag asg.name ASG_DESIRED_STATE_TAG
                  (toString (asg.desiredCapacity + (count : Int)))
                  (setCloudTag asg.name ASG_ORIG_CAPACITY_TAG (toString asg.desiredCapacity)
                    s.cloud))),
          cache := s.cache,
          evs := s.evs ++
            [Ev.resumeProcesses asg.name,
             Ev.saveTag asg.name ASG_ORIG_CAPACITY_TAG asg.desiredCapacity,
             Ev.saveTag asg.name ASG_DESIRED_STATE_TAG (asg.desiredCapacity + count),
             Ev.saveTag asg.name ASG_ORIG_MAX_CAPACITY_TAG asg.maxSize,
             Ev.scaleAsg asg.name asg.desiredCapacity (asg.desiredCapacity + count)
               (if asg.desiredCapacity + count > asg.maxSize then asg.desiredCapacity + count
                else asg.maxSize),
             Ev.validate asg.name (asg.desiredCapacity + count)] } := by
  have hne : ¬ (asg.desiredCapacity + (count : Int) = asg.desiredCapacity) := by omega
  have hgas : ((asg.desiredCapacity + (count : Int)) - asg.desiredCapacity).toNat =
      (((asg.desiredCapacity + (count : Int)) - asg.desiredCapacity).toNat - 1) + 1 := by
    omega
  simp only [scale_up_asg, modify_aws_autoscaling, save_asg_tags, setTag, hne, hfresh, hB,
    bind_apply, pure_apply, emit_apply, modCloud_apply, if_neg, if_false, Bool.false_eq_true,
    reduceIte]
  rw [hgas, scaleLoop_B0 w asg.name asg.maxSize (asg.desiredCapacity + (count : Int)) _ _ _ hh]
  simp [setCloudTag, setTag, List.append_assoc]


/-- Claim C1, counterexample.  The claim says that in run mode 2 no outdated
instance is drained, deleted from the node registry, or terminated.  In the
embedded code the per-group drain/delete/terminate loop is not gated on the
run mode, so a concrete mode-2 run with one outdated instance drains,
deletes and terminates it. -/
theorem c1_counterexample :
    Ev.drainAttempt (fxNode1.name) ∈
        runEvs (update_asgs fxWorld fxCfg2 fxPlan1) (initSt fxPlan1) ∧
    Ev.deleteNode (fxNode1.name) ∈
        runEvs (update_asgs fxWorld fxCfg2 fxPlan1) (initSt fxPlan1) ∧
    Ev.terminate (fxInst1.instanceId) ∈
        runEvs (update_asgs fxWorld fxCfg2 fxPlan1) (initSt fxPlan1) := by
  simp [runKind, runEvs, runCloud, mainRun, update_asgs, scaleUpAll, cordonPhase23, groupLoop,
    perGroup, scale_up_asg, scaleLoop, scaleStep, validateGate, modify_aws_autoscaling,
    save_asg_tags, delete_asg_tags, scale_asg, terminate_instance_in_asg, setTag, delTag,
    get_asg_tag, alookup, dictInsert, dictErase, optTruthy, pyInt, tagLookupCloud,
    cordonLoop14, cordonLoop23, cordonOne14, cordonOne23, resolveIncluded, resolveExcluded,
    get_node_by_instance_id, listResolve, strContains, listInfixCheck, listPrefixOf,
    matchesOrder, sortPlan, sortInner,
    retireLoop, retireOne, retireHandler, drain_node, evictAll, delete_node,
    cordon_node, taint_node, isDaemonPod, initSt,
    fxWorld, fxWorldBadDrain, fxWorldNoHealth, fxCfg, fxCfg2, fxCfgThrottle,
    fxPlan1, fxPlan2, fxPlanOther, fxAsg, fxAsgOther, fxInst1, fxInst2, fxNode1, fxNode2, fxPod,
    ASG_DESIRED_STATE_TAG, ASG_ORIG_CAPACITY_TAG, ASG_ORIG_MAX_CAPACITY_TAG]

/-- Claim C2 (code_bug).  The spec says an eviction failure during the drain
of a node that resolved against the included node list is fatal to the whole
run.  In the embedded code the exception handler first consults the
instance-to-node cache, which was necessarily populated when the node name
resolved, so every drain failure is logged as if the node were excluded and
skipped: on the concrete failing input (one outdated instance, its node in
the included list, the eviction of its pod failing) the drain is attempted,
the node is neither deleted nor the instance terminated, no
RollingUpdateException is raised, and the run completes successfully. -/
theorem c2_drain_failure_is_skipped_not_fatal :
    runKind (update_asgs fxWorldBadDrain fxCfg fxPlan1) (initSt fxPlan1) =
        RKind.ok ∧
    Ev.drainAttempt (fxNode1.name) ∈
        runEvs (update_asgs fxWorldBadDrain fxCfg fxPlan1) (initSt fxPlan1) ∧
    Ev.deleteNode (fxNode1.name) ∉
        runEvs (update_asgs fxWorldBadDrain fxCfg fxPlan1) (initSt fxPlan1) ∧
    Ev.terminate (fxInst1.instanceId) ∉
        runEvs (update_asgs fxWorldBadDrain fxCfg fxPlan1) (initSt fxPlan1) := by
  simp [runKind, runEvs, runCloud, mainRun, update_asgs, scaleUpAll, cordonPhase23, groupLoop,
    perGroup, scale_up_asg, scaleLoop, scaleStep, validateGate, modify_aws_autoscaling,
    save_asg_tags, delete_asg_tags, scale_asg, terminate_instance_in_asg, setTag, delTag,
    get_asg_tag, alookup, dictInsert, dictErase, optTruthy, pyInt, tagLookupCloud,
    cordonLoop14, cordonLoop23, cordonOne14, cordonOne23, resolveIncluded, resolveExcluded,
    get_node_by_instance_id, listResolve, strContains, listInfixCheck, listPrefixOf,
    matchesOrder, sortPlan, sortInner,
    retireLoop, retireOne, retireHandler, drain_node, evictAll, delete_node,
    cordon_node, taint_node, isDaemonPod, initSt,
    fxWorld, fxWorldBadDrain, fxWorldNoHealth, fxCfg, fxCfg2, fxCfgThrottle,
    fxPlan1, fxPlan2, fxPlanOther, fxAsg, fxAsgOther, fxInst1, fxInst2, fxNode1, fxNode2, fxPod,
    ASG_DESIRED_STATE_TAG, ASG_ORIG_CAPACITY_TAG, ASG_ORIG_MAX_CAPACITY_TAG]

/-- Claim C3, counterexample.  The claim says the running desired-capacity
counter decreases by exactly 1 per successfully retired instance and that an
instance whose retirement fails contributes no decrement.  In the embedded
code the decrement happens before the drain, and a drain failure is skipped
with the decrement persisting: in a concrete two-instance run where the
first instance's drain fails, only one instance is retired (n1 is never
deleted) yet the desired-state tag saved for the second instance is the
start value minus 2 (and no save of start value minus 1 ever happens). -/
theorem c3_counterexample :
    Ev.deleteNode (fxNode1.name) ∉
        runEvs (update_asgs fxWorldBadDrain fxCfg fxPlan2) (initSt fxPlan2) ∧
    Ev.saveTag (fxAsg.name) ASG_DESIRED_STATE_TAG 3 ∈
        runEvs (update_asgs fxWorldBadDrain fxCfg fxPlan2) (initSt fxPlan2) ∧
    Ev.saveTag (fxAsg.name) ASG_DESIRED_STATE_TAG 4 ∉
        runEvs (update_asgs fxWorldBadDrain fxCfg fxPlan2) (initSt fxPlan2) ∧
    Ev.deleteNode (fxNode2.name) ∈
        runEvs (update_asgs fxWorldBadDrain fxCfg fxPlan2) (initSt fxPlan2) := by
  simp [runKind, runEvs, runCloud, mainRun, update_asgs, scaleUpAll, cordonPhase23, groupLoop,
    perGroup, scale_up_asg, scaleLoop, scaleStep, validateGate, modify_aws_autoscaling,
    save_asg_tags, delete_asg_tags, scale_asg, terminate_instance_in_asg, setTag, delTag,
    get_asg_tag, alookup, dictInsert, dictErase, optTruthy, pyInt, tagLookupCloud,
    cordonLoop14, cordonLoop23, cordonOne14, cordonOne23, resolveIncluded, resolveExcluded,
    get_node_by_instance_id, listResolve, strContains, listInfixCheck, listPrefixOf,
    matchesOrder, sortPlan, sortInner,
    retireLoop, retireOne, retireHandler, drain_node, evictAll, delete_node,
    cordon_node, taint_node, isDaemonPod, initSt,
    fxWorld, fxWorldBadDrain, fxWorldNoHealth, fxCfg, fxCfg2, fxCfgThrottle,
    fxPlan1, fxPlan2, fxPlanOther, fxAsg, fxAsgOther, fxInst1, fxInst2, fxNode1, fxNode2, fxPod,
    ASG_DESIRED_STATE_TAG, ASG_ORIG_CAPACITY_TAG, ASG_ORIG_MAX_CAPACITY_TAG]

/-- Supporting fact for claim C8: the throttle wait loop
`while running_updates >= parallel_nodes_count: time.sleep(10)` re-polls a
counter nothing in its body changes, so whenever it is entered (counter at
or above the cap) it fails to exit within any amount of fuel. -/
theorem pollWaitFuel_none (running parallel : Nat) (h : running ≥ parallel) :
    ∀ fuel, pollWaitFuel running parallel fuel = none := by
  intro fuel
  induction fuel with
  | zero => rfl
  | succ n ih => simpa [pollWaitFuel, h] using ih

/-- Claim C8 (code_bug).  The claim (and spec section 4.3) says the
poll-and-wait before each new retirement eventually allows it to start, so
the per-group retirement loop terminates even when the outdated instances
outnumber the parallel-nodes cap.  The in-flight counter is incremented per
retirement but never decremented, so once it reaches the cap the wait loop
blocks forever (spec section 9 flags exactly this): on the concrete input
with cap 1 and two outdated instances the run diverges after retiring the
first instance - the first is terminated, the second never drained. -/
theorem c8_throttle_blocks_forever :
    runKind (update_asgs fxWorld fxCfgThrottle fxPlan2) (initSt fxPlan2) =
        RKind.diverge ∧
    Ev.terminate (fxInst1.instanceId) ∈
        runEvs (update_asgs fxWorld fxCfgThrottle fxPlan2) (initSt fxPlan2) ∧
    Ev.drainAttempt (fxNode2.name) ∉
        runEvs (update_asgs fxWorld fxCfgThrottle fxPlan2) (initSt fxPlan2) := by
  simp [runKind, runEvs, runCloud, mainRun, update_asgs, scaleUpAll, cordonPhase23, groupLoop,
    perGroup, scale_up_asg, scaleLoop, scaleStep, validateGate, modify_aws_autoscaling,
    save_asg_tags, delete_asg_tags, scale_asg, terminate_instance_in_asg, setTag, delTag,
    get_asg_tag, alookup, dictInsert, dictErase, optTruthy, pyInt, tagLookupCloud,
    cordonLoop14, cordonLoop23, cordonOne14, cordonOne23, resolveIncluded, resolveExcluded,
    get_node_by_instance_id, listResolve, strContains, listInfixCheck, listPrefixOf,
    matchesOrder, sortPlan, sortInner,
    retireLoop, retireOne, retireHandler, drain_node, evictAll, delete_node,
    cordon_node, taint_node, isDaemonPod, initSt,
    fxWorld, fxWorldBadDrain, fxWorldNoHealth, fxCfg, fxCfg2, fxCfgThrottle,
    fxPlan1, fxPlan2, fxPlanOther, fxAsg, fxAsgOther, fxInst1, fxInst2, fxNode1, fxNode2, fxPod,
    ASG_DESIRED_STATE_TAG, ASG_ORIG_CAPACITY_TAG, ASG_ORIG_MAX_CAPACITY_TAG]

/-- Claim C7, counterexample.  The claim says every group of a run that
completes without fatal error ends with its original desired capacity,
original max size and no state tags.  In run mode 2 the upfront scale-up
runs for every group of the plan, but the per-group cleanup only runs for
groups matching the worker-group order: a mode-2 run over a group whose
name matches no order entry completes successfully yet leaves the group
scaled up (desired 3 instead of 2) with all three state tags still
present. -/
theorem c7_counterexample :
    runKind (update_asgs fxWorld fxCfg2 fxPlanOther) (initSt fxPlanOther) =
        RKind.ok ∧
    (alookup (runCloud (update_asgs fxWorld fxCfg2 fxPlanOther)
        (initSt fxPlanOther)) (fxAsgOther.name)).map (fun a => a.desired) =
      some 3 ∧
    tagLookupCloud (runCloud (update_asgs fxWorld fxCfg2 fxPlanOther)
        (initSt fxPlanOther)) (fxAsgOther.name) ASG_DESIRED_STATE_TAG ≠
      none := by
  simp [runKind, runEvs, runCloud, mainRun, update_asgs, scaleUpAll, cordonPhase23, groupLoop,
    perGroup, scale_up_asg, scaleLoop, scaleStep, validateGate, modify_aws_autoscaling,
    save_asg_tags, delete_asg_tags, scale_asg, terminate_instance_in_asg, setTag, delTag,
    get_asg_tag, alookup, dictInsert, dictErase, optTruthy, pyInt, tagLookupCloud,
    cordonLoop14, cordonLoop23, cordonOne14, cordonOne23, resolveIncluded, resolveExcluded,
    get_node_by_instance_id, listResolve, strContains, listInfixCheck, listPrefixOf,
    matchesOrder, sortPlan, sortInner,
    retireLoop, retireOne, retireHandler, drain_node, evictAll, delete_node,
    cordon_node, taint_node, isDaemonPod, initSt,
    fxWorld, fxWorldBadDrain, fxWorldNoHealth, fxCfg, fxCfg2, fxCfgThrottle,
    fxPlan1, fxPlan2, fxPlanOther, fxAsg, fxAsgOther, fxInst1, fxInst2, fxNode1, fxNode2, fxPod,
    ASG_DESIRED_STATE_TAG, ASG_ORIG_CAPACITY_TAG, ASG_ORIG_MAX_CAPACITY_TAG]

/-- Claim C4.  For every group entering scale_up_asg with a pre-existing
resumable desired-capacity tag (and the other two state tags readable) and a
positive outdated-instance count, no scaling call and no tag write is issued
- the resulting state differs from the entry state only by the stale-
suspension resume and the health-validation call, the latter gated on the
recorded desired capacity - and the previously recorded
(target, original, original-max) triple is returned. -/
theorem c4_resume_never_rescales
    (w : World) (cfg : Config) (asg : Asg) (count : Nat) (s : St)
    (dv ov mv : Int) (sd so sm : String)
    (hcount : count ≠ 0)
    (hsd : get_asg_tag asg.tags ASG_DESIRED_STATE_TAG = some sd)
    (hsd1 : sd ≠ "") (hsd2 : pyIntParse sd = some dv)
    (hso : get_asg_tag asg.tags ASG_ORIG_CAPACITY_TAG = some so)
    (hso2 : pyIntParse so = some ov)
    (hsm : get_asg_tag asg.tags ASG_ORIG_MAX_CAPACITY_TAG = some sm)
    (hsm2 : pyIntParse sm = some mv)
    (hh : w.healthOk asg.name dv = true) :
    scale_up_asg w cfg asg count s =
      Step.ok (dv, ov, mv)
        { s with evs := s.evs ++ [Ev.resumeProcesses asg.name, Ev.validate asg.name dv] } := by
  have hne : asg.desiredCapacity + (count : Int) ≠ asg.desiredCapacity := by
    have : (count : Int) ≠ 0 := by exact_mod_cast hcount
    omega
  simp [scale_up_asg, modify_aws_autoscaling, validateGate, pyInt, optTruthy,
    hne, hsd, hsd1, hsd2, hso, hso2, hsm, hsm2, hh]

/-- Witness for claim C4: the resumable fixture group (tags 5/3/3, two
outdated instances) is not re-scaled and returns the recorded (5, 3, 3). -/
theorem c4_witness :
    scale_up_asg fxWorld fxCfg fxAsgResumable 2 (initSt fxPlan1) =
      Step.ok (5, 3, 3)
        { initSt fxPlan1 with
          evs := [Ev.resumeProcesses fxAsgResumable.name,
                  Ev.validate fxAsgResumable.name 5] } := by
  have h := c4_resume_never_rescales fxWorld fxCfg fxAsgResumable 2 (initSt fxPlan1)
    5 3 3 ("5") ("3") ("3") (by decide) (by decide) (by decide) (by decide)
    (by decide) (by decide) (by decide) (by decide) (by decide)
  simpa using h

/-- Claim C10.  The resume branch of scale_up_asg implicitly assumes all
three state tags are present: entered with a positive outdated-instance
count and a truthy desired-capacity tag while the orig-capacity or
orig-max-capacity tag is absent, it raises the unhandled integer-conversion
error (int(None)) instead of returning a triple, treating the tags as
absent, or raising one of the taxonomy errors - and it does so only after
the health validation has already run. -/
theorem c10_partial_tags_conversion_error
    (w : World) (cfg : Config) (asg : Asg) (count : Nat) (s : St)
    (dv : Int) (sd : String)
    (hcount : count ≠ 0)
    (hsd : get_asg_tag asg.tags ASG_DESIRED_STATE_TAG = some sd)
    (hsd1 : sd ≠ "") (hsd2 : pyIntParse sd = some dv)
    (hmiss : get_asg_tag asg.tags ASG_ORIG_CAPACITY_TAG = none ∨
             get_asg_tag asg.tags ASG_ORIG_MAX_CAPACITY_TAG = none)
    (hh : w.healthOk asg.name dv = true) :
    scale_up_asg w cfg asg count s =
      Step.err Err.convError
        { s with evs := s.evs ++ [Ev.resumeProcesses asg.name, Ev.validate asg.name dv] } := by
  have hne : asg.desiredCapacity + (count : Int) ≠ asg.desiredCapacity := by
    have : (count : Int) ≠ 0 := by exact_mod_cast hcount
    omega
  rcases hmiss with h | h
  · simp [scale_up_asg, modify_aws_autoscaling, validateGate, pyInt, optTruthy,
      hne, hsd, hsd1, hsd2, h, hh]
  · cases hoc : get_asg_tag asg.tags ASG_ORIG_CAPACITY_TAG with
    | none =>
      simp [scale_up_asg, modify_aws_autoscaling, validateGate, pyInt, optTruthy,
        hne, hsd, hsd1, hsd2, hoc, hh]
    | some so =>
      cases hsoi : pyIntParse so with
      | none =>
        simp [scale_up_asg, modify_aws_autoscaling, validateGate, pyInt, optTruthy,
          hne, hsd, hsd1, hsd2, hoc, hsoi, h, hh]
      | some ov =>
        simp [scale_up_asg, modify_aws_autoscaling, validateGate, pyInt, optTruthy,
          hne, hsd, hsd1, hsd2, hoc, hsoi, h, hh]

/-- Witness for claim C10: on the fixture group carrying only the
desired-capacity tag, scale_up_asg raises the conversion error after
validating health. -/
theorem c10_witness :
    scale_up_asg fxWorld fxCfg fxAsgPartialTags 2 (initSt fxPlan1) =
      Step.err Err.convError
        { initSt fxPlan1 with
          evs := [Ev.resumeProcesses fxAsgPartialTags.name,
                  Ev.validate fxAsgPartialTags.name 5] } := by
  have h := c10_partial_tags_conversion_error fxWorld fxCfg fxAsgPartialTags 2
    (initSt fxPlan1) 5 ("5") (by decide) (by decide) (by decide) (by decide)
    (Or.inl (by decide)) (by decide)
  simpa using h

/-- Claim C9, counterexample.  The claim says the external autoscaler is
resumed after the run in both outcomes, including a best-effort resume
before the non-zero exit on fatal failure.  In the embedded code the failure
handler only logs that the autoscaler will need resuming manually: on a
concrete failing run (health validation exhausted) with the integration
enabled, the autoscaler is paused, the process exits 1, and no resume of the
autoscaler ever happens. -/
theorem c9_counterexample :
    runKind (mainRun fxWorldNoHealth fxCfg fxPlan1) (initSt fxPlan1) =
        RKind.exited 1 ∧
    Ev.pauseAutoscaler ∈
        runEvs (mainRun fxWorldNoHealth fxCfg fxPlan1) (initSt fxPlan1) ∧
    Ev.resumeAutoscaler ∉
        runEvs (mainRun fxWorldNoHealth fxCfg fxPlan1) (initSt fxPlan1) := by
  simp [runKind, runEvs, runCloud, mainRun, update_asgs, scaleUpAll, cordonPhase23, groupLoop,
    perGroup, scale_up_asg, scaleLoop, scaleStep, validateGate, modify_aws_autoscaling,
    save_asg_tags, delete_asg_tags, scale_asg, terminate_instance_in_asg, setTag, delTag,
    get_asg_tag, alookup, dictInsert, dictErase, optTruthy, pyInt, tagLookupCloud,
    cordonLoop14, cordonLoop23, cordonOne14, cordonOne23, resolveIncluded, resolveExcluded,
    get_node_by_instance_id, listResolve, strContains, listInfixCheck, listPrefixOf,
    matchesOrder, sortPlan, sortInner,
    retireLoop, retireOne, retireHandler, drain_node, evictAll, delete_node,
    cordon_node, taint_node, isDaemonPod, initSt,
    fxWorld, fxWorldBadDrain, fxWorldNoHealth, fxCfg, fxCfg2, fxCfgThrottle,
    fxPlan1, fxPlan2, fxPlanOther, fxAsg, fxAsgOther, fxInst1, fxInst2, fxNode1, fxNode2, fxPod,
    ASG_DESIRED_STATE_TAG, ASG_ORIG_CAPACITY_TAG, ASG_ORIG_MAX_CAPACITY_TAG]


/-! ## Glue lemmas for single-group end-to-end runs, and the amended claim theorems -/

theorem alookup_delCloudTag (name key k : String) (cloud : List (String × AsgCloud)) :
    alookup (delCloudTag name key cloud) k =
      if k = name then (alookup cloud k).map (delTag key) else alookup cloud k :=
  alookup_mapIfName (delTag key) name k cloud

theorem alookup_applyScale (name : String) (d m : Int) (cloud : List (String × AsgCloud))
    (k : String) :
    alookup (applyScale name d m cloud) k =
      if k = name then
        (alookup cloud k).map (fun a => { a with desired := d, maxSize := m })
      else alookup cloud k :=
  alookup_mapIfName (fun a => { a with desired := d, maxSize := m }) name k cloud

theorem alookup_dictErase {β : Type} (t : List (String × β)) (k k' : String) :
    alookup (dictErase t k') k = if k = k' then none else alookup t k := by
  induction t with
  | nil => by_cases h : k = k' <;> simp [dictErase, alookup, h]
  | cons x xs ih =>
    obtain ⟨a, b⟩ := x
    by_cases ha : a = k' <;> by_cases hak : a = k <;> by_cases hk : k = k' <;>
      simp_all [dictErase, alookup, List.filter_cons]

theorem scaleUpAll_single (w : World) (cfg : Config) (e : PlanEntry) (s s' : St)
    (tr : Triple)
    (h : scale_up_asg w cfg e.asg e.instances.length s = Step.ok tr s') :
    scaleUpAll w cfg [e] [] s = Step.ok [(e.asg.name, tr)] s' := by
  simp only [scaleUpAll, h, pure_apply, dictInsert]

theorem cordonPhase23_single (w : World) (cfg : Config) (e : PlanEntry) (s s' : St)
    (hmatch : matchesOrder cfg.workerGroupsOrder e.asg.name = true)
    (h : cordonLoop23 w cfg e.instances s = Step.ok () s') :
    cordonPhase23 w cfg [e] s = Step.ok () s' := by
  simp only [cordonPhase23, hmatch, h, pure_apply, not_true_eq_false, if_false,
    Bool.true_eq_false, ite_false]

theorem groupLoop_single (w : World) (cfg : Config) (e : PlanEntry)
    (sd sd' : List (String × Triple)) (s s' : St)
    (h : perGroup w cfg sd e s = Step.ok sd' s') :
    groupLoop w cfg [e] sd s = Step.ok () s' := by
  simp only [groupLoop, h, pure_apply]

theorem perGroup_mode2 (w : World) (cfg : Config) (e : PlanEntry)
    (sd : List (String × Triple)) (s s3 : St) (tr : Triple) (dfin : Int)
    (hmode : cfg.runMode = 2)
    (hpol : cfg.useAsgTerminationPolicy = false)
    (hinst : e.instances.isEmpty = false)
    (hsd : alookup sd e.asg.name = some tr)
    (hret : retireLoop w cfg e.asg.name e.instances tr.1 0
        { s with evs := s.evs ++ [Ev.suspendProcesses e.asg.name] } = Step.ok dfin s3) :
    perGroup w cfg sd e s = Step.ok sd
      { cloud := delCloudTag e.asg.name ASG_ORIG_MAX_CAPACITY_TAG
          (delCloudTag e.asg.name ASG_ORIG_CAPACITY_TAG
            (delCloudTag e.asg.name ASG_DESIRED_STATE_TAG
              (applyScale e.asg.name tr.2.1 tr.2.2 s3.cloud))),
        cache := s3.cache,
        evs := s3.evs ++
          [Ev.scaleAsg e.asg.name tr.1 tr.2.1 tr.2.2,
           Ev.resumeProcesses e.asg.name,
           Ev.deleteTag e.asg.name ASG_DESIRED_STATE_TAG,
           Ev.deleteTag e.asg.name ASG_ORIG_CAPACITY_TAG,
           Ev.deleteTag e.asg.name ASG_ORIG_MAX_CAPACITY_TAG] } := by
  unfold perGroup
  simp only [Nat.reduceEqDiff, hmode, hpol, hinst, hsd, hret, bind_apply, pure_apply, emit_apply,
    modCloud_apply, modify_aws_autoscaling, scale_asg, delete_asg_tags, delCloudTag,
    applyScale, delTag, List.append_assoc, List.cons_append, List.nil_append,
    List.singleton_append, Bool.false_eq_true, not_false_eq_true, and_true, and_self,
    or_self, or_false, false_or, if_false, if_true, ite_false, ite_true, reduceIte]


theorem nodeOf_nil (w : World) (iid : String) :
    nodeOf w [] iid = listResolve w.nodes iid := rfl

theorem update_asgs_mode2_single_run (w : World) (cfg : Config) (e : PlanEntry)
    (s0 s1 : St) (tr : Triple)
    (hmode : cfg.runMode = 2)
    (hpol : cfg.useAsgTerminationPolicy = false)
    (hmatch : matchesOrder cfg.workerGroupsOrder e.asg.name = true)
    (hinst : e.instances.isEmpty = false)
    (hnodup : (e.instances.map (fun i => i.instanceId)).Nodup)
    (hres : ∀ i ∈ e.instances, (nodeOf w s0.cache i.instanceId).isSome = true)
    (hpar : e.instances.length ≤ cfg.parallelNodesCount)
    (hsu : scale_up_asg w cfg e.asg e.instances.length s0 = Step.ok tr s1)
    (hsc : s1.cache = s0.cache) :
    ∃ cloud' cache',
      (update_asgs w cfg [e] s0 = Step.ok ()
        { cloud := cloud', cache := cache',
          evs := s1.evs ++
            e.instances.map
              (fun i => cordonEv cfg ((nodeOf w s0.cache i.instanceId).getD (""))) ++
            [Ev.suspendProcesses e.asg.name] ++
            retireBlocksG w cfg e.asg.name s0.cache e.instances tr.1 ++
            [Ev.scaleAsg e.asg.name tr.1 tr.2.1 tr.2.2,
             Ev.resumeProcesses e.asg.name,
             Ev.deleteTag e.asg.name ASG_DESIRED_STATE_TAG,
             Ev.deleteTag e.asg.name ASG_ORIG_CAPACITY_TAG,
             Ev.deleteTag e.asg.name ASG_ORIG_MAX_CAPACITY_TAG] }) ∧
      (∃ tg, alookup cloud' e.asg.name =
        Option.map
          (fun _ =>
            { desired := tr.2.1, maxSize := tr.2.2,
              tags := dictErase (dictErase (dictErase tg ASG_DESIRED_STATE_TAG)
                ASG_ORIG_CAPACITY_TAG) ASG_ORIG_MAX_CAPACITY_TAG })
          (alookup s1.cloud e.asg.name)) := by
  obtain ⟨cache2, hc2, hinv2, hkeep2⟩ := cordonLoop23_spec w cfg e.instances s1
    (by rw [hsc]; exact hres)
  set s2 : St :=
    { cloud := s1.cloud, cache := cache2,
      evs := s1.evs ++ e.instances.map
        (fun i => cordonEv cfg ((nodeOf w s1.cache i.instanceId).getD (""))) } with hs2def
  set s2p : St :=
    { s2 with evs := s2.evs ++ [Ev.suspendProcesses e.asg.name] } with hs2p
  have hcache2 : s2p.cache = cache2 := rfl
  have hres2 : ∀ i ∈ e.instances, nodeOf w s2p.cache i.instanceId = none →
      (listResolve w.exNodes i.instanceId).isSome = true := by
    intro i hi hnone
    exfalso
    have hsome := hres i hi
    rw [hcache2, hinv2, hsc] at hnone
    rw [hnone] at hsome
    simp at hsome
  obtain ⟨cloud3, cache3, hret3, hk3, hc3, ht3⟩ :=
    retireLoop_spec w cfg e.asg.name e.instances tr.1 0 s2p hnodup hres2
      (by simpa using hpar)
  have hsd : alookup [(e.asg.name, tr)] e.asg.name = some tr := by simp [alookup]
  have hpg := perGroup_mode2 w cfg e [(e.asg.name, tr)] s2 _ tr _ hmode hpol hinst hsd hret3
  have hall : scaleUpAll w cfg [e] [] s0 = Step.ok [(e.asg.name, tr)] s1 :=
    scaleUpAll_single w cfg e s0 s1 tr hsu
  have hcp : cordonPhase23 w cfg [e] s1 = Step.ok () s2 :=
    cordonPhase23_single w cfg e s1 s2 hmatch hc2
  have hgl := groupLoop_single w cfg e [(e.asg.name, tr)] [(e.asg.name, tr)] s2 _ hpg
  have hrb : retireBlocksG w cfg e.asg.name cache2 e.instances tr.1 =
      retireBlocksG w cfg e.asg.name s0.cache e.instances tr.1 :=
    retireBlocksG_congr w cfg e.asg.name cache2 s0.cache e.instances tr.1
      (fun i _ => by rw [hinv2, hsc])
  obtain ⟨tg0, htg0⟩ := ht3
  refine ⟨delCloudTag e.asg.name ASG_ORIG_MAX_CAPACITY_TAG
    (delCloudTag e.asg.name ASG_ORIG_CAPACITY_TAG
      (delCloudTag e.asg.name ASG_DESIRED_STATE_TAG
        (applyScale e.asg.name tr.2.1 tr.2.2 cloud3))), cache3, ?_, ⟨tg0, ?_⟩⟩
  · unfold update_asgs
    simp only [hmode, Nat.reduceEqDiff, or_self, or_false, false_or, if_true, ite_true,
      reduceIte, bind_apply, pure_apply, hall, hcp]
    rw [sortPlan_single cfg.workerGroupsOrder e hmatch]
    rw [hgl]
    simp only [hs2p, hs2def, hrb, hsc, List.append_assoc]
  · rw [alookup_delCloudTag, if_pos rfl, alookup_delCloudTag, if_pos rfl,
      alookup_delCloudTag, if_pos rfl, alookup_applyScale, if_pos rfl]
    rw [show s2p.cloud = s1.cloud from by rw [hs2p, hs2def]] at htg0
    rw [htg0]
    cases alookup s1.cloud e.asg.name with
    | none => rfl
    | some a => simp [delTag]


/-- Claim C1, amended.  In run mode 2 the scale-up and the cordon of every
outdated node happen upfront, but the drain/delete/terminate phase and the
scale-down cleanup still run per group afterwards: for a single fresh
matching group the whole run trace is the upfront scale-up block, the cordon
of each outdated node, the suspension of the group, the retirement blocks
(which drain every resolved node, as the final conjunct shows), and the
scale-down cleanup with the tag deletions. -/
theorem c1_mode2_upfront_then_drain (w : World) (cfg : Config) (e : PlanEntry)
    (hmode : cfg.runMode = 2)
    (hpol : cfg.useAsgTerminationPolicy = false)
    (hB : cfg.batchSize = 0)
    (hmatch : matchesOrder cfg.workerGroupsOrder e.asg.name = true)
    (hfresh : optTruthy (get_asg_tag e.asg.tags ASG_DESIRED_STATE_TAG) = false)
    (hcount : ¬ e.instances.length = 0)
    (hnodup : (e.instances.map (fun i => i.instanceId)).Nodup)
    (hres : ∀ i ∈ e.instances, (listResolve w.nodes i.instanceId).isSome = true)
    (hpar : e.instances.length ≤ cfg.parallelNodesCount)
    (hh : w.healthOk e.asg.name (e.asg.desiredCapacity + e.instances.length) = true) :
    (∃ cloud' cache',
      update_asgs w cfg [e] (initSt [e]) = Step.ok ()
        { cloud := cloud', cache := cache',
          evs :=
            [Ev.resumeProcesses e.asg.name,
             Ev.saveTag e.asg.name ASG_ORIG_CAPACITY_TAG e.asg.desiredCapacity,
             Ev.saveTag e.asg.name ASG_DESIRED_STATE_TAG
               (e.asg.desiredCapacity + e.instances.length),
             Ev.saveTag e.asg.name ASG_ORIG_MAX_CAPACITY_TAG e.asg.maxSize,
             Ev.scaleAsg e.asg.name e.asg.desiredCapacity
               (e.asg.desiredCapacity + e.instances.length)
               (if e.asg.desiredCapacity + e.instances.length > e.asg.maxSize then
                  e.asg.desiredCapacity + e.instances.length
                else e.asg.maxSize),
             Ev.validate e.asg.name (e.asg.desiredCapacity + e.instances.length)] ++
            e.instances.map
              (fun i => cordonEv cfg ((listResolve w.nodes i.instanceId).getD (""))) ++
            [Ev.suspendProcesses e.asg.name] ++
            retireBlocksG w cfg e.asg.name [] e.instances
              (e.asg.desiredCapacity + e.instances.length) ++
            [Ev.scaleAsg e.asg.name (e.asg.desiredCapacity + e.instances.length)
               e.asg.desiredCapacity e.asg.maxSize,
             Ev.resumeProcesses e.asg.name,
             Ev.deleteTag e.asg.name ASG_DESIRED_STATE_TAG,
             Ev.deleteTag e.asg.name ASG_ORIG_CAPACITY_TAG,
             Ev.deleteTag e.asg.name ASG_ORIG_MAX_CAPACITY_TAG] }) ∧
    (∀ i ∈ e.instances, ∀ nm, listResolve w.nodes i.instanceId = some nm →
      Ev.drainAttempt nm ∈ retireBlocksG w cfg e.asg.name [] e.instances
        (e.asg.desiredCapacity + e.instances.length)) := by
  have hE : e.instances.isEmpty = false := by
    cases hi : e.instances with
    | nil => rw [hi] at hcount; simp at hcount
    | cons a l => rfl
  have hsu := scale_up_asg_fresh_B0 w cfg e.asg e.instances.length (initSt [e]) hfresh hB
    hcount hh
  have hres1 : ∀ i ∈ e.instances,
      (nodeOf w ((initSt [e]).cache) i.instanceId).isSome = true := by
    intro i hi
    have hc : (initSt [e]).cache = [] := rfl
    rw [hc, nodeOf_nil]
    exact hres i hi
  obtain ⟨cloud', cache', hrun, _⟩ := update_asgs_mode2_single_run w cfg e (initSt [e]) _ _
    hmode hpol hmatch hE hnodup hres1 hpar hsu rfl
  constructor
  · refine ⟨cloud', cache', ?_⟩
    rw [hrun]
    simp only [initSt, nodeOf_nil, List.nil_append, List.append_assoc, List.cons_append,
      List.map_cons, List.map_nil]
  · intro i hi nm hnm
    exact retireBlocksG_mem_drain w cfg e.asg.name [] e.instances _ i nm hi
      (by rw [nodeOf_nil]; exact hnm)


/-- Claim C7, amended.  A group processed by the per-group phase has its
capacities restored and its three state tags removed at the end of a
successful run: for a single fresh matching group in run mode 2, the final
cloud record of the group has its original desired capacity and max size,
and none of the three state tags.  (The counterexample shows the flip side:
a mode-2 group matching no worker-group-order entry is left scaled up with
the tags still present.) -/
theorem c7_matching_group_restored (w : World) (cfg : Config) (e : PlanEntry)
    (hmode : cfg.runMode = 2)
    (hpol : cfg.useAsgTerminationPolicy = false)
    (hB : cfg.batchSize = 0)
    (hmatch : matchesOrder cfg.workerGroupsOrder e.asg.name = true)
    (hfresh : optTruthy (get_asg_tag e.asg.tags ASG_DESIRED_STATE_TAG) = false)
    (hcount : ¬ e.instances.length = 0)
    (hnodup : (e.instances.map (fun i => i.instanceId)).Nodup)
    (hres : ∀ i ∈ e.instances, (listResolve w.nodes i.instanceId).isSome = true)
    (hpar : e.instances.length ≤ cfg.parallelNodesCount)
    (hh : w.healthOk e.asg.name (e.asg.desiredCapacity + e.instances.length) = true) :
    ∃ st', update_asgs w cfg [e] (initSt [e]) = Step.ok () st' ∧
      ∃ a, alookup st'.cloud e.asg.name = some a ∧
        a.desired = e.asg.desiredCapacity ∧
        a.maxSize = e.asg.maxSize ∧
        alookup a.tags ASG_DESIRED_STATE_TAG = none ∧
        alookup a.tags ASG_ORIG_CAPACITY_TAG = none ∧
        alookup a.tags ASG_ORIG_MAX_CAPACITY_TAG = none := by
  have hE : e.instances.isEmpty = false := by
    cases hi : e.instances with
    | nil => rw [hi] at hcount; simp at hcount
    | cons a l => rfl
  have hsu := scale_up_asg_fresh_B0 w cfg e.asg e.instances.length (initSt [e]) hfresh hB
    hcount hh
  have hres1 : ∀ i ∈ e.instances,
      (nodeOf w ((initSt [e]).cache) i.instanceId).isSome = true := by
    intro i hi
    have hc : (initSt [e]).cache = [] := rfl
    rw [hc, nodeOf_nil]
    exact hres i hi
  obtain ⟨cloud', cache', hrun, tg, htg⟩ := update_asgs_mode2_single_run w cfg e
    (initSt [e]) _ _ hmode hpol hmatch hE hnodup hres1 hpar hsu rfl
  have h0 : alookup ((initSt [e]).cloud) e.asg.name =
      some { desired := e.asg.desiredCapacity, maxSize := e.asg.maxSize,
             tags := e.asg.tags } := by
    simp [initSt, alookup]
  simp only [alookup_applyScale, alookup_setCloudTag, if_pos rfl, h0, Option.map_some]
    at htg
  refine ⟨_, hrun, ?_⟩
  refine ⟨_, htg, rfl, rfl, ?_, ?_, ?_⟩ <;>
    rw [alookup_dictErase, alookup_dictErase, alookup_dictErase] <;>
      simp [ASG_DESIRED_STATE_TAG, ASG_ORIG_CAPACITY_TAG, ASG_ORIG_MAX_CAPACITY_TAG]


/-- Claim C3, amended.  In the retirement loop of one group the running
desired-capacity counter decreases by exactly one per instance whose node
name resolves - including an instance whose drain then fails, since the
decrement at cli.py line 258 precedes the drain - while an instance whose
node name does not resolve (the excluded-list fallback) contributes no
decrement; the final counter is the initial one minus the number of
resolving instances, so with an initial counter at least the number of
outdated instances it never goes negative. -/
theorem c3_decrement_per_resolved_instance (w : World) (cfg : Config)
    (asgName : String) (l : List Inst) (d : Int) (s : St)
    (hnodup : (l.map (fun i => i.instanceId)).Nodup)
    (hexc : ∀ i ∈ l, nodeOf w s.cache i.instanceId = none →
        (listResolve w.exNodes i.instanceId).isSome = true)
    (hpar : l.length ≤ cfg.parallelNodesCount)
    (hd : (l.length : Int) ≤ d) :
    ∃ cloud' cache',
      (retireLoop w cfg asgName l d 0 s =
        Step.ok (d - resolvedCount w s.cache l)
          { cloud := cloud', cache := cache',
            evs := s.evs ++ retireBlocksG w cfg asgName s.cache l d }) ∧
      resolvedCount w s.cache l ≤ l.length ∧
      0 ≤ d - resolvedCount w s.cache l := by
  obtain ⟨cloud', cache', h1, _, _, _⟩ :=
    retireLoop_spec w cfg asgName l d 0 s hnodup hexc (by simpa using hpar)
  have hle : resolvedCount w s.cache l ≤ l.length := List.length_filter_le _ _
  exact ⟨cloud', cache', h1, hle, by omega⟩


/-- Claim C9, amended.  With the autoscaler integration enabled, the run
pauses the autoscaler first and resumes it exactly when update_asgs
succeeds; when update_asgs raises, the handler exits with code 1 from the
failure state without emitting the resume (the code only logs that the
autoscaler will need resuming manually). -/
theorem c9_autoscaler_resume_on_success_only (w : World) (cfg : Config)
    (plan : List PlanEntry) (s : St)
    (hen : cfg.autoscalerEnabled = true) :
    (∀ (a : Unit) (s2 : St),
      update_asgs w cfg plan { s with evs := s.evs ++ [Ev.pauseAutoscaler] } =
        Step.ok a s2 →
      mainRun w cfg plan s =
        Step.ok () { s2 with evs := s2.evs ++ [Ev.resumeAutoscaler] }) ∧
    (∀ (er : Err) (s2 : St),
      update_asgs w cfg plan { s with evs := s.evs ++ [Ev.pauseAutoscaler] } =
        Step.err er s2 →
      mainRun w cfg plan s = Step.exited 1 s2) := by
  constructor
  · intro a s2 h
    unfold mainRun
    simp only [hen, if_true, ite_true, bind_apply, emit_apply, pure_apply, tryCatch_apply, h]
  · intro er s2 h
    unfold mainRun
    simp only [hen, if_true, ite_true, bind_apply, emit_apply, pure_apply, tryCatch_apply, h,
      exitProc_apply]


theorem c1_witness :
    Ev.drainAttempt (fxNode1.name) ∈
      retireBlocksG fxWorld fxCfg2 (fxAsg.name) [] [fxInst1]
        (fxAsg.desiredCapacity + ([fxInst1].length : Int)) :=
  (c1_mode2_upfront_then_drain fxWorld fxCfg2 { instances := [fxInst1], asg := fxAsg }
      rfl rfl rfl (by decide) rfl (by decide) (by decide) (by decide) (by decide) rfl).2
    fxInst1 (by simp) (fxNode1.name) (by decide)

theorem c3_witness :
    ∃ cloud' cache',
      (retireLoop fxWorldBadDrain fxCfg (fxAsg.name) [fxInst1] 1 0 (initSt fxPlan1) =
        Step.ok (1 - (resolvedCount fxWorldBadDrain ((initSt fxPlan1).cache) [fxInst1] : Int))
          { cloud := cloud', cache := cache',
            evs := (initSt fxPlan1).evs ++
              retireBlocksG fxWorldBadDrain fxCfg (fxAsg.name)
                ((initSt fxPlan1).cache) [fxInst1] 1 }) ∧
      resolvedCount fxWorldBadDrain ((initSt fxPlan1).cache) [fxInst1] ≤ [fxInst1].length ∧
      0 ≤ 1 - (resolvedCount fxWorldBadDrain ((initSt fxPlan1).cache) [fxInst1] : Int) :=
  c3_decrement_per_resolved_instance fxWorldBadDrain fxCfg (fxAsg.name) [fxInst1] 1
    (initSt fxPlan1) (by decide) (by decide) (by decide) (by decide)

theorem c7_witness :
    ∃ st', update_asgs fxWorld fxCfg2 fxPlan1 (initSt fxPlan1) = Step.ok () st' ∧
      ∃ a, alookup st'.cloud (fxAsg.name) = some a ∧
        a.desired = fxAsg.desiredCapacity ∧
        a.maxSize = fxAsg.maxSize ∧
        alookup a.tags ASG_DESIRED_STATE_TAG = none ∧
        alookup a.tags ASG_ORIG_CAPACITY_TAG = none ∧
        alookup a.tags ASG_ORIG_MAX_CAPACITY_TAG = none :=
  c7_matching_group_restored fxWorld fxCfg2 { instances := [fxInst1], asg := fxAsg }
    rfl rfl rfl (by decide) rfl (by decide) (by decide) (by decide) (by decide) rfl

theorem c9_witness :
    mainRun fxWorldNoHealth fxCfg fxPlan1 (initSt fxPlan1) =
      Step.exited 1
        { cloud :=
            [(("webA"),
              { desired := 4, maxSize := 4,
                tags := [(("t:orig"), toString (3 : Int)), (("t:desired"), toString (4 : Int)),
                         (("t:origmax"), toString (3 : Int))] })],
          cache := [],
          evs :=
            [Ev.pauseAutoscaler, Ev.resumeProcesses ("webA"), Ev.saveTag ("webA") ("t:orig") 3,
             Ev.saveTag ("webA") ("t:desired") 4, Ev.saveTag ("webA") ("t:origmax") 3,
             Ev.scaleAsg ("webA") 3 4 4, Ev.validate ("webA") 4] } :=
  (c9_autoscaler_resume_on_success_only fxWorldNoHealth fxCfg fxPlan1 (initSt fxPlan1)
      rfl).2 Err.healthExhausted _
    (by simp [update_asgs, scaleUpAll, cordonPhase23, groupLoop,
      perGroup, scale_up_asg, scaleLoop, scaleStep, validateGate, modify_aws_autoscaling,
      save_asg_tags, delete_asg_tags, scale_asg, terminate_instance_in_asg, setTag, delTag,
      get_asg_tag, alookup, dictInsert, dictErase, optTruthy, pyInt,
      cordonLoop14, cordonLoop23, cordonOne14, cordonOne23, resolveIncluded, resolveExcluded,
      get_node_by_instance_id, listResolve, strContains, listInfixCheck, listPrefixOf,
      matchesOrder, sortPlan, sortInner,
      retireLoop, retireOne, retireHandler, drain_node, evictAll, delete_node,
      cordon_node, taint_node, isDaemonPod, initSt,
      fxWorld, fxWorldNoHealth, fxCfg, fxPlan1, fxAsg, fxInst1, fxNode1, fxNode2, fxPod,
      ASG_DESIRED_STATE_TAG, ASG_ORIG_CAPACITY_TAG, ASG_ORIG_MAX_CAPACITY_TAG])

end EksRollup
